import Mathlib

/-!
# RemoteDeviceMonitoring: a verification development

A shallow embedding of the monitoring server (`Src/MonitoringServer.cpp`), the
device simulator's argument validation (`Src/Device.cpp`) and the shared wire
records (`Include/Common.hpp`), followed by theorems about them.

Conventions of the embedding:

* C++ `int32_t` values are `Int`; where the width matters the value is reduced
  with `wrapInt32` (two's complement, modulo `2 ^ 32`).
* A byte is a `Fin 256`.
* The module-scope array `pollFd` is a total map from index to slot.  Its declared
  extent is `pollFdSlots = MaxDeviceSupported + 1`.  The map stands for the array only at
  the indices `0 .. pollFdSlots - 1`: a store at any other index is outside the array,
  which is undefined in C++, and it is logged in the field `outOfBounds` of the state.
  What the map holds after such a store is a placeholder; statements about every state
  carry hypotheses that keep each store inside the array.
* Results of system calls (`accept`, `read`, `write`, `poll`) are inputs.
* Text written to `cout` / `cerr` is not part of the model.
-/

namespace RemoteDeviceMonitoring

/-! ## `Include/Common.hpp` -/

namespace Default

/-- The constant `Default::DeviceNameLength`. -/
def DeviceNameLength : Nat := 64

/-- The constant `Default::MaxDeviceSupported`. -/
def MaxDeviceSupported : Nat := 5

/-- The constant `Default::ServerPort`. -/
def ServerPort : Nat := 8100

end Default

/-- One octet of memory or of the byte stream. -/
abbrev Byte := Fin 256

/-- A member of a struct declaration: the size and the alignment of its type. -/
structure Field where
  size : Nat
  align : Nat
deriving DecidableEq, Repr

/-- The type `int32_t`: four bytes, aligned to four. -/
def int32Field : Field := ⟨4, 4⟩

/-- The type `char[n]`: `n` bytes, aligned to one. -/
def charArrayField (n : Nat) : Field := ⟨n, 1⟩

/-- Members of `struct MessageFrame`, in declaration order:
`int32_t deviceId; char deviceName[Default::DeviceNameLength]; int32_t data;`. -/
def messageFrameFields : List Field :=
  [int32Field, charArrayField Default.DeviceNameLength, int32Field]

/-- Members of `struct Response`: `int32_t errorCode;`. -/
def responseFields : List Field := [int32Field]

/-- The least multiple of `a` that is at least `off`. -/
def alignUp (off a : Nat) : Nat := (off + a - 1) / a * a

/-- Offsets of the members of a standard-layout struct: each member is placed at the
first suitably aligned offset after the previous member. -/
def fieldOffsets : Nat → List Field → List Nat
  | _, [] => []
  | off, f :: fs => alignUp off f.align :: fieldOffsets (alignUp off f.align + f.size) fs

/-- Offset just past the last member. -/
def fieldsEnd : Nat → List Field → Nat
  | off, [] => off
  | off, f :: fs => fieldsEnd (alignUp off f.align + f.size) fs

/-- Alignment of a struct: the largest alignment of a member. -/
def structAlign (fs : List Field) : Nat := fs.foldl (fun a f => max a f.align) 1

/-- The value of `sizeof` for a struct: the end of the last member rounded up to the
struct's alignment. -/
def sizeofStruct (fs : List Field) : Nat := alignUp (fieldsEnd 0 fs) (structAlign fs)

/-- The value of `sizeof(MessageFrame)`. -/
def sizeofMessageFrame : Nat := sizeofStruct messageFrameFields

/-- The value of `sizeof(Response)`. -/
def sizeofResponse : Nat := sizeofStruct responseFields

/-- Offset of member number `k` of `MessageFrame`. -/
def messageFrameOffset (k : Nat) : Nat := (fieldOffsets 0 messageFrameFields).getD k 0

/-- Reduction of an integer to the range of `int32_t` (two's complement). -/
def wrapInt32 (v : Int) : Int := (v + 2 ^ 31) % 2 ^ 32 - 2 ^ 31

/-- Membership in the range of `int32_t`. -/
def IsInt32 (v : Int) : Prop := -(2 ^ 31) ≤ v ∧ v < 2 ^ 31

instance (v : Int) : Decidable (IsInt32 v) := by
  unfold IsInt32; infer_instance

/-- Byte order of the platform; the code never converts, so both are covered. -/
inductive ByteOrder where
  | little
  | big
deriving DecidableEq, Repr

/-- The byte with value `n mod 256`. -/
def byteOfNat (n : Nat) : Byte := ⟨n % 256, Nat.mod_lt n (by decide)⟩

/-- Little-endian bytes of the low 32 bits of a natural number. -/
def bytesLE (u : Nat) : List Byte :=
  [byteOfNat u, byteOfNat (u / 256), byteOfNat (u / 65536), byteOfNat (u / 16777216)]

/-- Object representation of an `int32_t` value. -/
def storeInt32 (bo : ByteOrder) (v : Int) : List Byte :=
  match bo with
  | .little => bytesLE (v % 2 ^ 32).toNat
  | .big => (bytesLE (v % 2 ^ 32).toNat).reverse

/-- Value of byte `k` of a byte list (zero past the end). -/
def byteAt (b : List Byte) (k : Nat) : Nat := (b.getD k 0).val

/-- The unsigned 32-bit number whose little-endian bytes are the first four of `b`. -/
def natOfBytesLE (b : List Byte) : Nat :=
  byteAt b 0 + 256 * byteAt b 1 + 65536 * byteAt b 2 + 16777216 * byteAt b 3

/-- The `int32_t` value whose object representation is the first four bytes of `b`. -/
def loadInt32 (bo : ByteOrder) (b : List Byte) : Int :=
  match bo with
  | .little => wrapInt32 (natOfBytesLE b)
  | .big => wrapInt32 (natOfBytesLE (b.take 4).reverse)

/-- The struct `MessageFrame`. -/
structure MessageFrame where
  deviceId : Int
  deviceName : List Byte
  data : Int
deriving DecidableEq, Repr

/-- The struct `Response`. -/
structure Response where
  errorCode : Int
deriving DecidableEq, Repr

/-- A `MessageFrame` value of the C++ type: both integers are `int32_t` and the name
is an array of `DeviceNameLength` chars. -/
def MessageFrame.WellTyped (f : MessageFrame) : Prop :=
  IsInt32 f.deviceId ∧ f.deviceName.length = Default.DeviceNameLength ∧ IsInt32 f.data

instance (f : MessageFrame) : Decidable f.WellTyped := by
  unfold MessageFrame.WellTyped; infer_instance

/-- A `Response` value of the C++ type. -/
def Response.WellTyped (r : Response) : Prop := IsInt32 r.errorCode

instance (r : Response) : Decidable r.WellTyped := by
  unfold Response.WellTyped; infer_instance

/-- The bytes `x[off .. off + n - 1]`. -/
def slice (x : List Byte) (off n : Nat) : List Byte := (x.drop off).take n

/-- Object representation of a `MessageFrame`: what `write(fd, &message, sizeof(message))`
sends. -/
def encodeFrame (bo : ByteOrder) (f : MessageFrame) : List Byte :=
  storeInt32 bo f.deviceId ++ f.deviceName ++ storeInt32 bo f.data

/-- The `MessageFrame` whose object representation is `x`: what the members hold after
`read(fd, &message, sizeof(message))` filled the struct with `x`. -/
def decodeFrame (bo : ByteOrder) (x : List Byte) : MessageFrame :=
  { deviceId := loadInt32 bo (slice x (messageFrameOffset 0) int32Field.size)
    deviceName := slice x (messageFrameOffset 1) Default.DeviceNameLength
    data := loadInt32 bo (slice x (messageFrameOffset 2) int32Field.size) }

/-- Object representation of a `Response`. -/
def encodeResponse (bo : ByteOrder) (r : Response) : List Byte := storeInt32 bo r.errorCode

/-- The `Response` whose object representation is `x`. -/
def decodeResponse (bo : ByteOrder) (x : List Byte) : Response :=
  { errorCode := loadInt32 bo (slice x 0 int32Field.size) }

/-! ## `Src/MonitoringServer.cpp` -/

/-- The event bit `POLLIN` of `<poll.h>`. -/
def POLLIN : Nat := 0x001

/-- The event bit `POLLERR` of `<poll.h>`. -/
def POLLERR : Nat := 0x008

/-- The event bit `POLLHUP` of `<poll.h>`. -/
def POLLHUP : Nat := 0x010

/-- The event bit `POLLNVAL` of `<poll.h>`. -/
def POLLNVAL : Nat := 0x020

/-- The constant `MaxDeviceQueue`. -/
def MaxDeviceQueue : Nat := 32

/-- The constant `PollTimeoutMilliSeconds`. -/
def PollTimeoutMilliSeconds : Nat := 3 * 60 * 1000

/-- Declared number of elements of the array `pollFd`:
`struct pollfd pollFd[Default::MaxDeviceSupported + 1]`. -/
def pollFdSlots : Nat := Default.MaxDeviceSupported + 1

/-- The struct `pollfd` of `<poll.h>`. -/
structure PollFd where
  fd : Int
  events : Nat
  revents : Nat
deriving DecidableEq, Repr

/-- The type `unordered_map<int32_t, int32_t>`: a key is absent (`none`) or mapped. -/
abbrev CounterTable := Int → Option Int

/-- State of the server process: the module-scope `pollFd` and `pollIndex`, and the
members `_socketFd` and `_messageCounter` of the `MonitoringServer` instance.  The field
`outOfBounds` is not program state: it logs the indices at which `pollFd[pollIndex]` was
stored outside the declared array. -/
structure ServerState where
  pollFd : Int → PollFd
  pollIndex : Int
  _socketFd : Int
  _messageCounter : CounterTable
  outOfBounds : List Int

/-- Outcome of `read(fd, &message, sizeof(message))`. -/
inductive ReadResult where
  /-- The call returned `-1`; nothing was stored. -/
  | error
  /-- The call stored `bytes` (at most `sizeof(message)` of them) and returned their
  number; no bytes means the peer closed the stream. -/
  | data (bytes : List Byte)
deriving DecidableEq, Repr

/-- An observable action of the server, in the order performed. -/
inductive Action where
  /-- The call `close(fd)`. -/
  | close (fd : Int)
  /-- The call `::accept(listenFd, ...)` and the value it returned. -/
  | accept (listenFd : Int) (ret : Int)
  /-- The call `read(fd, &message, count)` and its outcome. -/
  | read (fd : Int) (count : Nat) (result : ReadResult)
  /-- The call `write(fd, &response, count)` with the value of `response`. -/
  | write (fd : Int) (response : Response) (count : Nat)
  /-- The call `server.Accept()` made by the dispatch loop for the slot holding `fd`. -/
  | invokeAccept (fd : Int)
  /-- The call `server.ReadData(fd)` made by the dispatch loop. -/
  | invokeReadData (fd : Int)
deriving DecidableEq, Repr

/-- The assignment `pollFd[i].fd = v`. -/
def setFd (pf : Int → PollFd) (i : Int) (v : Int) : Int → PollFd :=
  fun k => if k = i then { pf k with fd := v } else pf k

/-- The assignment `pollFd[i].events = v`. -/
def setEvents (pf : Int → PollFd) (i : Int) (v : Nat) : Int → PollFd :=
  fun k => if k = i then { pf k with events := v } else pf k

/-- State at process start: the static array is zero-initialised, `pollIndex = 0`, the
counter table is empty; `socketFd` is the value `socket()` returned to the constructor. -/
def initialState (socketFd : Int) : ServerState :=
  { pollFd := fun _ => ⟨0, 0, 0⟩
    pollIndex := 0
    _socketFd := socketFd
    _messageCounter := fun _ => none
    outOfBounds := [] }

/-- The constructor `MonitoringServer()`: the process exits (`none`) when `socket()`
returned a negative value. -/
def construct (socketRet : Int) : Option ServerState :=
  if socketRet < 0 then none else some (initialState socketRet)

/-- The three statements `pollFd[pollIndex].fd = fd; pollFd[pollIndex].events = POLLIN;
pollIndex++;` that `Listen` and `Accept` use to add a socket for polling.  The source
makes the store without testing `pollIndex` against the extent of the array; when
`pollIndex` is not one of `0 .. pollFdSlots - 1` the store is outside the array and its
index is logged in `outOfBounds`. -/
def addPollFd (s : ServerState) (fd : Int) : ServerState :=
  { s with
    pollFd := setEvents (setFd s.pollFd s.pollIndex fd) s.pollIndex POLLIN
    pollIndex := s.pollIndex + 1
    outOfBounds :=
      if 0 ≤ s.pollIndex ∧ s.pollIndex < pollFdSlots then s.outOfBounds
      else s.outOfBounds ++ [s.pollIndex] }

/-- The method `Listen`: `listenRet` is the value returned by `::listen`; the process exits
(`none`) when it is not zero, otherwise the listening socket is stored at
`pollFd[pollIndex]` and `pollIndex` is incremented. -/
def Listen (s : ServerState) (listenRet : Int) : Option ServerState :=
  if listenRet ≠ 0 then none else some (addPollFd s s._socketFd)

/-- The method `Accept`.  `rets` are the values returned by the successive calls of
`::accept`; once they are used up the next call fails, and `wouldBlock` tells whether
`errno` is `EWOULDBLOCK` at the failing call.  The result is `none` when the process exits.
The `fcntl` call only changes file status flags and is not part of the state. -/
def Accept : ServerState → List Int → Bool → Option ServerState × List Action
  | s, [], wouldBlock =>
    (if wouldBlock then some s else none, [Action.accept s._socketFd (-1)])
  | s, connectionFd :: rets, wouldBlock =>
    if connectionFd < 0 then
      (if wouldBlock then some s else none, [Action.accept s._socketFd connectionFd])
    else
      if connectionFd ≠ -1 then
        let r := Accept (addPollFd s connectionFd) rets wouldBlock
        (r.1, Action.accept s._socketFd connectionFd :: r.2)
      else
        (some (addPollFd s connectionFd), [Action.accept s._socketFd connectionFd])

/-- What the environment supplies to one call of `ReadData`. -/
structure ReadDataIO where
  /-- Bytes occupying the local variable `message` before the read; it is declared
  without an initialiser. -/
  stack : List Byte
  /-- Outcome of the `read`. -/
  readResult : ReadResult
  /-- Value returned by the `write`.  A `write` that raises `SIGPIPE` does not return
  (the server installs no handler for it); that outcome is not an input of the model. -/
  writeRet : Int
deriving DecidableEq, Repr

/-- The value returned by `read`. -/
def readRet : ReadResult → Int
  | .error => -1
  | .data bytes => (min bytes.length sizeofMessageFrame : Nat)

/-- Bytes of `message` after the read: the stored bytes followed by what was there. -/
def messageBytes (stack : List Byte) : ReadResult → List Byte
  | .error => stack
  | .data bytes =>
    bytes.take sizeofMessageFrame ++ stack.drop (min bytes.length sizeofMessageFrame)

/-- The statement `_messageCounter[key]++`: `operator[]` inserts `0` for an absent key,
then the `int32_t` value is incremented. -/
def counterIncrement (m : CounterTable) (key : Int) : CounterTable :=
  fun k => if k = key then some (wrapInt32 ((m key).getD 0 + 1)) else m k

/-- The method `ReadData(inputDataFd)`.  A negative result of `read` or of `write` is
only reported on `cerr`; the method always returns `0`. -/
def ReadData (bo : ByteOrder) (s : ServerState) (inputDataFd : Int) (io : ReadDataIO) :
    ServerState × List Action :=
  let message := decodeFrame bo (messageBytes io.stack io.readResult)
  let s1 : ServerState :=
    { s with _messageCounter := counterIncrement s._messageCounter message.deviceId }
  let response : Response := { errorCode := 200 }
  (s1, [Action.read inputDataFd sizeofMessageFrame io.readResult,
        Action.write inputDataFd response sizeofResponse])

/-- The loop `for (j = i; j < pollIndex - 1; j++) pollFd[j].fd = pollFd[j + 1].fd;`
with `n` iterations left. -/
def reorganize : Nat → Int → (Int → PollFd) → Int → PollFd
  | 0, _, pf => pf
  | n + 1, j, pf => reorganize n (j + 1) (setFd pf j (pf (j + 1)).fd)

/-- The block run for an unexpected event at slot `i`: `close(pollFd[i].fd)`,
`pollFd[i].fd = -1`, the reorganising loop, `pollIndex--`. -/
def closeAndReorganize (s : ServerState) (i : Int) : ServerState × List Action :=
  ({ s with
      pollFd := reorganize (s.pollIndex - 1 - i).toNat i (setFd s.pollFd i (-1))
      pollIndex := s.pollIndex - 1 },
   [Action.close (s.pollFd i).fd])

/-- The condition `(revents != POLLIN) && !(revents & POLLNVAL)`. -/
def isUnexpected (revents : Nat) : Bool :=
  revents != POLLIN && (revents &&& POLLNVAL) == 0

/-- What the environment supplies to the handler called for one slot. -/
structure HandlerIO where
  /-- Values returned by `::accept` when the handler is `Accept`. -/
  acceptRets : List Int
  /-- Whether `errno` is `EWOULDBLOCK` when `::accept` fails. -/
  acceptWouldBlock : Bool
  /-- Input of `ReadData` when that is the handler. -/
  readData : ReadDataIO
deriving DecidableEq, Repr

/-- Body of the dispatch loop of `PollMonitor` for index `i`. -/
def dispatchEntry (bo : ByteOrder) (io : HandlerIO) (s : ServerState) (i : Int) :
    Option ServerState × List Action :=
  if (s.pollFd i).revents = 0 then (some s, [])
  else if isUnexpected (s.pollFd i).revents then
    let r := closeAndReorganize s i
    (some r.1, r.2)
  else if (s.pollFd i).fd = s._socketFd then
    let r := Accept s io.acceptRets io.acceptWouldBlock
    (r.1, Action.invokeAccept (s.pollFd i).fd :: r.2)
  else
    let r := ReadData bo s (s.pollFd i).fd io.readData
    (some r.1, Action.invokeReadData (s.pollFd i).fd :: r.2)

/-- The loop `for (i = ...; i < activePollFd; i++)` with `n` iterations left; `io i` is
what the environment supplies at index `i`. -/
def dispatchLoop (bo : ByteOrder) (io : Int → HandlerIO) :
    Nat → Int → ServerState → Option ServerState × List Action
  | 0, _, s => (some s, [])
  | n + 1, i, s =>
    match dispatchEntry bo (io i) s i with
    | (none, tr) => (none, tr)
    | (some s1, tr) =>
      let r := dispatchLoop bo io n (i + 1) s1
      (r.1, tr ++ r.2)

/-- One dispatch pass: `activePollFd = pollIndex`, then the loop from `i = 0`. -/
def dispatch (bo : ByteOrder) (io : Int → HandlerIO) (s : ServerState) :
    Option ServerState × List Action :=
  dispatchLoop bo io s.pollIndex.toNat 0 s

/-- Outcome of `poll(pollFd, MaxDeviceSupported + 1, PollTimeoutMilliSeconds)`. -/
inductive PollResult where
  /-- The call returned a negative value; the array is left as it was. -/
  | error
  /-- The call stored `revents k` in `pollFd[k].revents` for each of the slots passed
  and returned the number of slots with a non-zero value. -/
  | ready (revents : Int → Nat)

/-- The array after `poll` stored the snapshot in the `pollFdSlots` slots passed. -/
def storeRevents (pf : Int → PollFd) (revents : Int → Nat) : Int → PollFd :=
  fun k => if 0 ≤ k ∧ k < pollFdSlots then { pf k with revents := revents k } else pf k

/-- The value `nfdReady` returned by a successful `poll`. -/
def nfdReady (revents : Int → Nat) : Nat :=
  ((List.range pollFdSlots).filter (fun k => revents (k : Int) != 0)).length

/-- The state after a successful `poll` stored the snapshot `revents`. -/
def polled (s : ServerState) (revents : Int → Nat) : ServerState :=
  { s with pollFd := storeRevents s.pollFd revents }

/-- One iteration of the `do ... while (!isExit)` loop of `PollMonitor`: the `poll`
call, the exit on timeout (`nfdReady == 0`), and the dispatch pass. -/
def pollMonitorIteration (bo : ByteOrder) (pr : PollResult) (io : Int → HandlerIO)
    (s : ServerState) : Option ServerState × List Action :=
  match pr with
  | .error => dispatch bo io s
  | .ready revents =>
    if nfdReady revents = 0 then (none, []) else dispatch bo io (polled s revents)

/-- The loop `do ... while (!isExit)` of `PollMonitor`, for as many iterations as the
environment script has entries; it stops early when the process exits. -/
def pollMonitorRun (bo : ByteOrder) :
    List (PollResult × (Int → HandlerIO)) → ServerState → Option ServerState × List Action
  | [], s => (some s, [])
  | step :: steps, s =>
    match pollMonitorIteration bo step.1 step.2 s with
    | (none, tr) => (none, tr)
    | (some s1, tr) =>
      let r := pollMonitorRun bo steps s1
      (r.1, tr ++ r.2)

/-! ### Observations on states and traces -/

/-- The read brought a whole record: it stored `sizeof(MessageFrame)` bytes. -/
def ReadResult.isFullFrame : ReadResult → Bool
  | .error => false
  | .data bytes => bytes.length == sizeofMessageFrame

/-- The action is a `read` that brought a whole record carrying device id `D`. -/
def Action.isFrameFor (bo : ByteOrder) (D : Int) : Action → Bool
  | .read _ _ (.data bytes) =>
    bytes.length == sizeofMessageFrame && (decodeFrame bo bytes).deviceId == D
  | _ => false

/-- Number of whole records carrying device id `D` read in a trace. -/
def framesRead (bo : ByteOrder) (D : Int) (tr : List Action) : Nat :=
  (tr.filter (Action.isFrameFor bo D)).length

/-- The action is a `read` that brought less than a whole record. -/
def Action.isShortRead : Action → Bool
  | .read _ _ r => !r.isFullFrame
  | _ => false

/-- Every `read` of the trace brought a whole record. -/
def allReadsFull (tr : List Action) : Prop :=
  ∀ a ∈ tr, Action.isShortRead a = false

instance (tr : List Action) : Decidable (allReadsFull tr) := by
  unfold allReadsFull; infer_instance

/-- Value of the counter of `D`, reading an absent key as zero. -/
def counterOf (s : ServerState) (D : Int) : Int := (s._messageCounter D).getD 0

/-- The socket a handler was invoked on, for the actions that are handler invocations. -/
def Action.handlerSocket : Action → Option Int
  | .invokeAccept fd => some fd
  | .invokeReadData fd => some fd
  | _ => none

/-- Sockets on which a handler was invoked, in order. -/
def handlerSockets (tr : List Action) : List Int := tr.filterMap Action.handlerSocket

/-- The registry `pollFd[0 .. pollIndex - 1]` as a list of slots. -/
def registry (s : ServerState) : List PollFd :=
  (List.range s.pollIndex.toNat).map (fun k => s.pollFd (k : Int))

/-- Stated from the specification: the sockets a dispatch pass has to service, in registry
order: those whose own `revents` is non-zero and not an unexpected event. -/
def readySockets (s : ServerState) : List Int :=
  ((registry s).filter (fun e => e.revents != 0 && !isUnexpected e.revents)).map PollFd.fd

/-- Every `write` of the trace sends a `Response` with `errorCode = 200`. -/
def acksOnly (tr : List Action) : Prop :=
  ∀ fd r n, Action.write fd r n ∈ tr → r.errorCode = 200 ∧ n = sizeofResponse

/-- The listener `sock` is in slot 0 and the registry is long enough to survive `n` more
removals. -/
def ListenerAtZero (sock : Int) (s : ServerState) (n : Nat) : Prop :=
  s._socketFd = sock ∧ (s.pollFd 0).fd = sock ∧ (n : Int) + 1 ≤ s.pollIndex

/-- No slot from 1 up to `B` holds the listener `sock`, and the registry ends by `B`. -/
def OthersDiffer (sock B : Int) (s : ServerState) : Prop :=
  s._socketFd = sock ∧ (∀ k, 1 ≤ k → k < B → (s.pollFd k).fd ≠ sock) ∧ s.pollIndex ≤ B

/-! ### Concrete scenarios -/

/-- A handler input with nothing pending: `accept` would block, `read` fails. -/
def quietIO : HandlerIO := ⟨[], true, ⟨List.replicate 72 0, .error, -1⟩⟩

/-- A snapshot reporting `ev` at slot `i` and nothing elsewhere. -/
def onlyAt (i : Int) (ev : Nat) : Int → Nat := fun k => if k = i then ev else 0

/-- The server after construction on socket 3 and `Listen`. -/
def listening : ServerState := addPollFd (initialState 3) 3

/-- The server holding the listener 3 and the devices `fds`, accepted in that order. -/
def serving (fds : List Int) : ServerState := ((Accept listening fds true).1).getD listening

/-- A server whose table holds `2 ^ 31 - 1` for device 1. -/
def saturated : ServerState :=
  { listening with _messageCounter := fun k => if k = 1 then some 2147483647 else none }

/-- A whole record from device `id` with payload 0, in little-endian byte order. -/
def frameFrom (id : Int) : ReadDataIO :=
  ⟨List.replicate 72 0, .data (encodeFrame .little ⟨id, List.replicate 64 0, 0⟩), 4⟩

/-- Bytes left in the local `message` by earlier calls: the representation of device id 7
followed by zeros. -/
def staleStack : List Byte := 7 :: List.replicate 71 0

/-- One loop iteration in which slot 1 is readable and a whole record of device 1 is read. -/
def oneFrameStep : PollResult × (Int → HandlerIO) :=
  (.ready (onlyAt 1 POLLIN), fun _ => ⟨[], true, frameFrom 1⟩)

/-- Input of a handler whose `read` returns zero bytes (the peer closed the stream) and
whose `write` of the 4-byte acknowledgement returns 4. -/
def peerClosedIO : HandlerIO := ⟨[], true, ⟨List.replicate 72 0, .data [], 4⟩⟩

/-- A snapshot reporting an error condition on the listener only. -/
def listenerError : Int → Nat := onlyAt 0 POLLERR

/-- Handler inputs of a pass in which six connections (sockets 4 to 9) are pending on the
listener. -/
def sixPending : Int → HandlerIO :=
  fun i => if i = 0 then ⟨[4, 5, 6, 7, 8, 9], true, quietIO.readData⟩ else quietIO

/-- A snapshot reporting a hang-up at slot 1 and readable data at slot 2. -/
def hangupThenReadable : Int → Nat :=
  fun k => if k = 1 then POLLHUP else if k = 2 then POLLIN else 0

/-! ## `Src/Device.cpp` -/

/-- The function `isdigit` of `<cctype>` on a `char`. -/
def isdigit (c : Char) : Bool := 48 ≤ c.toNat && c.toNat ≤ 57

/-- The function `isspace` of `<cctype>`: space, and the controls from tab to carriage
return. -/
def isspace (c : Char) : Bool := c.toNat = 32 || (9 ≤ c.toNat && c.toNat ≤ 13)

/-- The function `IsNumber`: `false` at the first character that is not a digit, `true`
when the loop ends (also for the empty string). -/
def IsNumber : List Char → Bool
  | [] => true
  | c :: str => if isdigit c = false then false else IsNumber str

/-- The exceptions thrown by `std::stoi`. -/
inductive StoiError where
  | invalid_argument
  | out_of_range
deriving DecidableEq, Repr

/-- Value of a run of decimal digits, most significant first, as the conversion
accumulates it. -/
def digitsValue (ds : List Char) : Nat :=
  ds.foldl (fun acc c => 10 * acc + (c.toNat - 48)) 0

/-- The function `std::stoi(str)` of `<string>` (base 10, `int` of 32 bits): leading
white space is skipped, then an optional sign and the longest run of digits are converted.
It throws `invalid_argument` when there is no digit to convert and `out_of_range` when the
value is outside the range of `int`. -/
def stoi (str : List Char) : Except StoiError Int :=
  let body := str.dropWhile isspace
  let signed : Bool × List Char :=
    match body with
    | c :: rest => if c = Char.ofNat 45 then (true, rest)
                   else if c = Char.ofNat 43 then (false, rest) else (false, body)
    | [] => (false, body)
  let ds := signed.2.takeWhile isdigit
  if ds = [] then Except.error StoiError.invalid_argument
  else
    let v : Int := if signed.1 then -(digitsValue ds : Int) else (digitsValue ds : Int)
    if v < -(2 ^ 31) ∨ 2 ^ 31 - 1 < v then Except.error StoiError.out_of_range
    else Except.ok v

/-- How the start of the device program ends. -/
inductive DeviceStart where
  /-- The call `exit(EXIT_FAILURE)` was made before the `Device` object was constructed. -/
  | exitFailure
  /-- An exception left `main` before the `Device` object was constructed: the process is
  terminated abnormally (`std::terminate`). -/
  | terminated (e : StoiError)
  /-- Validation passed: control reaches `Device device(deviceId)`, whose constructor
  creates the socket, and then `connectServer`. -/
  | constructed (deviceId : Int)
deriving DecidableEq, Repr

/-- The function `main` of the device program up to the construction of the `Device`;
`argv` holds the program name followed by the arguments, so `argc = argv.length`. -/
def deviceMain (argv : List (List Char)) : DeviceStart :=
  if argv.length ≠ 2 then DeviceStart.exitFailure
  else
    let arg := argv.getD 1 []
    if IsNumber arg then
      match stoi arg with
      | Except.error e => DeviceStart.terminated e
      | Except.ok deviceId =>
        if deviceId < 1 ∨ deviceId > Default.MaxDeviceSupported then DeviceStart.exitFailure
        else DeviceStart.constructed deviceId
    else DeviceStart.exitFailure

/-- The start ended with a non-zero status before any socket was created: by
`exit(EXIT_FAILURE)`, or by abnormal termination on an uncaught exception. -/
def DeviceStart.endedNonZero : DeviceStart → Bool
  | .exitFailure => true
  | .terminated _ => true
  | .constructed _ => false

/-- The start went past validation. -/
def DeviceStart.proceeded : DeviceStart → Bool
  | .constructed _ => true
  | _ => false

/-- Stated from the specification: the number that a string denotes as a decimal integer,
when it is a non-empty string of decimal digits. -/
def denotedNumber (s : List Char) : Option Nat :=
  if s ≠ [] ∧ s.all Char.isDigit = true then
    some (Nat.ofDigits 10 (s.reverse.map (fun c => c.toNat - 48)))
  else none

/-- Stated from the specification: the string denotes a decimal integer in the range
`1 .. MaxDeviceSupported`. -/
def DenotesDeviceId (s : List Char) : Prop :=
  ∃ n, denotedNumber s = some n ∧ 1 ≤ n ∧ n ≤ Default.MaxDeviceSupported

/-! ## Wire record lemmas -/

theorem sizeofMessageFrame_eq : sizeofMessageFrame = 72 := by decide

theorem sizeofResponse_eq : sizeofResponse = 4 := by decide

theorem messageFrame_offsets : fieldOffsets 0 messageFrameFields = [0, 4, 68] := by decide

theorem storeInt32_length (bo : ByteOrder) (v : Int) : (storeInt32 bo v).length = 4 := by
  cases bo <;> simp [storeInt32, bytesLE]

theorem bytesLE_natOfBytesLE (a b c d : Byte) :
    bytesLE (natOfBytesLE [a, b, c, d]) = [a, b, c, d] := by
  have ha := a.isLt
  have hb := b.isLt
  have hc := c.isLt
  have hd := d.isLt
  simp only [bytesLE, natOfBytesLE, byteAt, byteOfNat, List.getD_cons_zero, List.getD_cons_succ]
  refine List.cons_eq_cons.mpr ⟨Fin.ext ?_, List.cons_eq_cons.mpr ⟨Fin.ext ?_,
    List.cons_eq_cons.mpr ⟨Fin.ext ?_, List.cons_eq_cons.mpr ⟨Fin.ext ?_, rfl⟩⟩⟩⟩ <;>
  · simp only []
    omega

theorem natOfBytesLE_lt (b : List Byte) : natOfBytesLE b < 2 ^ 32 := by
  have h0 := (b.getD 0 0).isLt
  have h1 := (b.getD 1 0).isLt
  have h2 := (b.getD 2 0).isLt
  have h3 := (b.getD 3 0).isLt
  simp only [natOfBytesLE, byteAt]
  omega

theorem wrapInt32_emod (v : Int) : wrapInt32 v % 2 ^ 32 = v % 2 ^ 32 := by
  unfold wrapInt32
  omega

theorem wrapInt32_of_isInt32 (v : Int) (h : IsInt32 v) : wrapInt32 v = v := by
  unfold IsInt32 at h
  unfold wrapInt32
  omega

theorem wrapInt32_isInt32 (v : Int) : IsInt32 (wrapInt32 v) := by
  unfold IsInt32 wrapInt32
  omega

theorem natOfBytesLE_bytesLE (u : Nat) (h : u < 2 ^ 32) : natOfBytesLE (bytesLE u) = u := by
  simp only [bytesLE, natOfBytesLE, byteAt, byteOfNat, List.getD_cons_zero, List.getD_cons_succ]
  omega

theorem storeInt32_loadInt32 (bo : ByteOrder) (l : List Byte) (h : l.length = 4) :
    storeInt32 bo (loadInt32 bo l) = l := by
  match l, h with
  | [a, b, c, d], _ =>
    cases bo
    · have hlt := natOfBytesLE_lt [a, b, c, d]
      simp only [storeInt32, loadInt32, wrapInt32_emod]
      have : ((natOfBytesLE [a, b, c, d] : Int) % 2 ^ 32).toNat = natOfBytesLE [a, b, c, d] := by
        omega
      rw [this, bytesLE_natOfBytesLE]
    · have hlt := natOfBytesLE_lt [d, c, b, a]
      simp only [storeInt32, loadInt32, wrapInt32_emod, List.take, List.reverse_cons,
        List.reverse_nil, List.nil_append, List.cons_append]
      have : ((natOfBytesLE [d, c, b, a] : Int) % 2 ^ 32).toNat = natOfBytesLE [d, c, b, a] := by
        omega
      rw [this, bytesLE_natOfBytesLE]
      rfl

theorem loadInt32_storeInt32 (bo : ByteOrder) (v : Int) (h : IsInt32 v) :
    loadInt32 bo (storeInt32 bo v) = v := by
  have hu : (v % 2 ^ 32).toNat < 2 ^ 32 := by omega
  cases bo
  · simp only [storeInt32, loadInt32, natOfBytesLE_bytesLE _ hu]
    unfold IsInt32 at h
    unfold wrapInt32
    omega
  · simp only [storeInt32, loadInt32]
    rw [List.take_of_length_le (by simp [bytesLE]), List.reverse_reverse, natOfBytesLE_bytesLE _ hu]
    unfold IsInt32 at h
    unfold wrapInt32
    omega

theorem messageFrameOffset_zero : messageFrameOffset 0 = 0 := by decide

theorem messageFrameOffset_one : messageFrameOffset 1 = 4 := by decide

theorem messageFrameOffset_two : messageFrameOffset 2 = 68 := by decide

theorem slice_length (x : List Byte) (off n : Nat) (h : off + n ≤ x.length) :
    (slice x off n).length = n := by
  simp only [slice, List.length_take, List.length_drop]
  omega

theorem slices_of_frame (x : List Byte) (h : x.length = 72) :
    slice x 0 4 ++ slice x 4 64 ++ slice x 68 4 = x := by
  have h3 : slice x 68 4 = List.drop 64 (List.drop 4 x) := by
    simp only [slice, List.drop_drop]
    exact List.take_of_length_le (by simp only [List.length_drop]; omega)
  rw [h3]
  simp only [slice, List.drop_zero, List.append_assoc, List.take_append_drop]

/-! ## The wire records (C9) -/

/-- C9. The telemetry frame occupies 72 bytes: a 4-byte `deviceId` at offset 0, the
64-byte `deviceName` at offset 4 and a 4-byte `data` at offset 68; the acknowledgement
occupies 4 bytes.  For either byte order, re-encoding the frame decoded from any 72 bytes
gives those bytes back, likewise for any 4 bytes and `Response`, and decoding the
encoding of any frame (or response) of the C++ type gives the value back; an encoded
frame holds each member's representation at its offset. -/
theorem wire_record_layout_and_round_trip (bo : ByteOrder) :
    sizeofMessageFrame = 72 ∧
    fieldOffsets 0 messageFrameFields = [0, 4, 68] ∧
    messageFrameFields.map Field.size = [4, 64, 4] ∧
    sizeofResponse = 4 ∧
    (∀ x : List Byte, x.length = sizeofMessageFrame →
      encodeFrame bo (decodeFrame bo x) = x) ∧
    (∀ x : List Byte, x.length = sizeofResponse →
      encodeResponse bo (decodeResponse bo x) = x) ∧
    (∀ f : MessageFrame, f.WellTyped →
      (encodeFrame bo f).length = sizeofMessageFrame ∧
      slice (encodeFrame bo f) 0 4 = storeInt32 bo f.deviceId ∧
      slice (encodeFrame bo f) 4 64 = f.deviceName ∧
      slice (encodeFrame bo f) 68 4 = storeInt32 bo f.data ∧
      decodeFrame bo (encodeFrame bo f) = f) ∧
    (∀ r : Response, r.WellTyped →
      (encodeResponse bo r).length = sizeofResponse ∧
      decodeResponse bo (encodeResponse bo r) = r) := by
  refine ⟨by decide, by decide, by decide, by decide, ?_, ?_, ?_, ?_⟩
  · intro x hx
    rw [sizeofMessageFrame_eq] at hx
    simp only [encodeFrame, decodeFrame, messageFrameOffset_zero, messageFrameOffset_one,
      messageFrameOffset_two]
    have e1 : int32Field.size = 4 := rfl
    have e2 : Default.DeviceNameLength = 64 := rfl
    rw [e1, e2, storeInt32_loadInt32 bo _ (slice_length x 0 4 (by omega)),
      storeInt32_loadInt32 bo _ (slice_length x 68 4 (by omega))]
    exact slices_of_frame x hx
  · intro x hx
    rw [sizeofResponse_eq] at hx
    simp only [encodeResponse, decodeResponse]
    have e1 : int32Field.size = 4 := rfl
    rw [e1, storeInt32_loadInt32 bo _ (slice_length x 0 4 (by omega))]
    simp only [slice, List.drop_zero]
    exact List.take_of_length_le (by omega)
  · intro f hf
    obtain ⟨hid, hname, hdata⟩ := hf
    have e2 : Default.DeviceNameLength = 64 := rfl
    rw [e2] at hname
    have l1 := storeInt32_length bo f.deviceId
    have l2 := storeInt32_length bo f.data
    have s1 : slice (encodeFrame bo f) 0 4 = storeInt32 bo f.deviceId := by
      simp only [slice, encodeFrame, List.drop_zero, List.append_assoc]
      rw [List.take_append_of_le_length (by omega)]
      exact List.take_of_length_le (by omega)
    have s2 : slice (encodeFrame bo f) 4 64 = f.deviceName := by
      simp only [slice, encodeFrame, List.append_assoc]
      rw [List.drop_append_of_le_length (by omega), List.drop_of_length_le (by omega),
        List.nil_append, List.take_append_of_le_length (by omega)]
      exact List.take_of_length_le (by omega)
    have s3 : slice (encodeFrame bo f) 68 4 = storeInt32 bo f.data := by
      simp only [slice, encodeFrame]
      rw [List.drop_append_eq_append_drop, List.drop_of_length_le
        (by simp only [List.length_append]; omega), List.nil_append]
      simp only [List.length_append, l1, hname]
      exact List.take_of_length_le (by simp only [List.length_drop]; omega)
    refine ⟨?_, s1, s2, s3, ?_⟩
    · simp only [encodeFrame, List.length_append, l1, l2, hname, sizeofMessageFrame_eq]
    · have e1 : int32Field.size = 4 := rfl
      simp only [decodeFrame, messageFrameOffset_zero, messageFrameOffset_one,
        messageFrameOffset_two, e1, e2, s1, s2, s3, loadInt32_storeInt32 bo _ hid,
        loadInt32_storeInt32 bo _ hdata]
  · intro r hr
    have l1 := storeInt32_length bo r.errorCode
    refine ⟨by simp only [encodeResponse, l1, sizeofResponse_eq], ?_⟩
    have e1 : int32Field.size = 4 := rfl
    have s1 : slice (storeInt32 bo r.errorCode) 0 4 = storeInt32 bo r.errorCode := by
      simp only [slice, List.drop_zero]
      exact List.take_of_length_le (by omega)
    simp only [decodeResponse, encodeResponse, e1, s1, loadInt32_storeInt32 bo _ hr]

/-- C9 at concrete records: 72 zero bytes, and the frame of device 3 with payload `-7`. -/
theorem wire_record_layout_and_round_trip_witness :
    encodeFrame .little (decodeFrame .little (List.replicate 72 0)) = List.replicate 72 0 ∧
    decodeFrame .big (encodeFrame .big ⟨3, List.replicate 64 0, -7⟩) =
      ⟨3, List.replicate 64 0, -7⟩ :=
  ⟨(wire_record_layout_and_round_trip .little).2.2.2.2.1 _ (by decide),
   ((wire_record_layout_and_round_trip .big).2.2.2.2.2.2.1 ⟨3, List.replicate 64 0, -7⟩
      (by decide)).2.2.2.2⟩


/-! ## Lemmas on the device's argument validation -/

theorem isdigit_eq_isDigit (c : Char) : isdigit c = c.isDigit := by
  unfold isdigit Char.isDigit Char.toNat
  have h1 : (c.val ≥ 48) ↔ 48 ≤ c.val.toNat := by
    show (48 : UInt32) ≤ c.val ↔ _
    rw [UInt32.le_def]
    rfl
  have h2 : (c.val ≤ 57) ↔ c.val.toNat ≤ 57 := by
    rw [UInt32.le_def]
    rfl
  simp only [Bool.decide_eq_true, h1, h2]

theorem IsNumber_eq_all (s : List Char) : IsNumber s = s.all isdigit := by
  induction s with
  | nil => rfl
  | cons c cs ih =>
    simp only [IsNumber, List.all_cons, ih]
    cases isdigit c <;> simp

theorem digitsValue_foldl (ds : List Char) (acc : Nat) :
    ds.foldl (fun acc c => 10 * acc + (c.toNat - 48)) acc =
      acc * 10 ^ ds.length + digitsValue ds := by
  induction ds generalizing acc with
  | nil => simp [digitsValue]
  | cons c cs ih =>
    simp only [digitsValue, List.foldl_cons, List.length_cons] at ih ⊢
    rw [ih (10 * acc + (c.toNat - 48)), ih (10 * 0 + (c.toNat - 48))]
    ring

theorem digitsValue_eq_ofDigits (ds : List Char) :
    digitsValue ds = Nat.ofDigits 10 (ds.reverse.map (fun c => c.toNat - 48)) := by
  induction ds with
  | nil => simp [digitsValue]
  | cons c cs ih =>
    rw [List.reverse_cons, List.map_append, Nat.ofDigits_append, ← ih]
    simp only [digitsValue, List.foldl_cons, List.map_cons, List.map_nil, Nat.ofDigits_singleton,
      List.length_map, List.length_reverse]
    rw [digitsValue_foldl]
    simp only [digitsValue]
    ring

theorem isdigit_not_isspace (c : Char) (h : isdigit c = true) : isspace c = false := by
  simp only [isdigit, Bool.and_eq_true, decide_eq_true_eq] at h
  simp only [isspace, Bool.or_eq_false_iff, decide_eq_false_iff_not, Bool.and_eq_false_imp,
    decide_eq_true_eq]
  omega

theorem isdigit_not_sign (c : Char) (h : isdigit c = true) :
    c ≠ Char.ofNat 45 ∧ c ≠ Char.ofNat 43 := by
  simp only [isdigit, Bool.and_eq_true, decide_eq_true_eq] at h
  constructor <;>
  · intro hc
    rw [hc] at h
    revert h
    decide

theorem takeWhile_all (s : List Char) (h : s.all isdigit = true) : s.takeWhile isdigit = s := by
  rw [List.takeWhile_eq_self_iff]
  intro c hc
  exact (List.all_eq_true.mp h) c hc

theorem stoi_of_digits (s : List Char) (hne : s ≠ []) (h : s.all isdigit = true) :
    stoi s = if 2 ^ 31 - 1 < (digitsValue s : Int) then Except.error StoiError.out_of_range
             else Except.ok (digitsValue s : Int) := by
  match s, hne with
  | c :: cs, _ =>
    have hc : isdigit c = true := by
      simp only [List.all_cons, Bool.and_eq_true] at h
      exact h.1
    have hsp := isdigit_not_isspace c hc
    obtain ⟨hm, hp⟩ := isdigit_not_sign c hc
    have htw := takeWhile_all (c :: cs) h
    unfold stoi
    simp only [List.dropWhile_cons, hsp, Bool.false_eq_true, if_false, hm, hp, htw]
    have e : ((digitsValue (c :: cs) : Int) < -(2 ^ 31) ∨
        2 ^ 31 - 1 < (digitsValue (c :: cs) : Int)) ↔
        (2 ^ 31 - 1 < (digitsValue (c :: cs) : Int)) := by
      have : (0 : Int) ≤ (digitsValue (c :: cs) : Int) := Int.ofNat_nonneg _
      omega
    simp only [e, reduceCtorEq, if_false]

theorem deviceMain_of_digits (prog s : List Char) (hne : s ≠ []) (h : s.all isdigit = true) :
    deviceMain [prog, s] =
      if 2 ^ 31 - 1 < (digitsValue s : Int) then DeviceStart.terminated StoiError.out_of_range
      else if digitsValue s < 1 ∨ Default.MaxDeviceSupported < digitsValue s then
        DeviceStart.exitFailure
      else DeviceStart.constructed (digitsValue s : Int) := by
  have hn : IsNumber s = true := by rw [IsNumber_eq_all]; exact h
  unfold deviceMain
  simp only [List.length_cons, List.length_nil, ne_eq, not_true_eq_false, if_false,
    List.getD_cons_succ, List.getD_cons_zero, hn, if_true, stoi_of_digits s hne h]
  by_cases hb : 2 ^ 31 - 1 < (digitsValue s : Int)
  · simp only [hb, if_true]
  · simp only [hb, if_false]
    have e : ((digitsValue s : Int) < 1 ∨ (digitsValue s : Int) > (Default.MaxDeviceSupported : Nat)) ↔
        (digitsValue s < 1 ∨ Default.MaxDeviceSupported < digitsValue s) := by
      omega
    simp only [e]

theorem denotedNumber_of_digits (s : List Char) (hne : s ≠ []) (h : s.all isdigit = true) :
    denotedNumber s = some (digitsValue s) := by
  have h2 : s.all Char.isDigit = true := by
    rw [← h]
    exact congrArg (List.all s) (funext fun c => (isdigit_eq_isDigit c).symm)
  simp only [denotedNumber, hne, ne_eq, not_false_eq_true, h2, and_self, if_true,
    digitsValue_eq_ofDigits]

theorem denotedNumber_eq_none (s : List Char) (h : s = [] ∨ s.all isdigit = false) :
    denotedNumber s = none := by
  have e : List.all s Char.isDigit = List.all s isdigit := by
    exact congrArg (List.all s) (funext fun c => (isdigit_eq_isDigit c).symm)
  unfold denotedNumber
  rw [e]
  rcases h with h | h
  · simp [h]
  · simp [h]

/-! ## Device id validation (C8) -/

/-- C8. For every argument string `s`, the device program goes past validation (constructs
the `Device` and attempts a connection) if and only if `s` denotes a decimal integer in
`1 .. MaxDeviceSupported`, and then the device id is that integer; for every other `s` it
ends with a non-zero status before the `Device` (and so any socket) is created, by
`exit(EXIT_FAILURE)` or by abnormal termination on the exception `std::stoi` throws. -/
theorem device_id_validation (prog s : List Char) :
    ((deviceMain [prog, s]).proceeded = true ↔ DenotesDeviceId s) ∧
    (¬ DenotesDeviceId s → (deviceMain [prog, s]).endedNonZero = true) ∧
    (∀ n : Nat, denotedNumber s = some n → 1 ≤ n → n ≤ Default.MaxDeviceSupported →
      deviceMain [prog, s] = DeviceStart.constructed n) := by
  have key : ∀ n : Nat, denotedNumber s = some n → 1 ≤ n → n ≤ Default.MaxDeviceSupported →
      deviceMain [prog, s] = DeviceStart.constructed n := by
    intro n hn h1 h5
    by_cases hne : s = []
    · rw [denotedNumber_eq_none s (Or.inl hne)] at hn
      cases hn
    · cases hall : s.all isdigit
      · rw [denotedNumber_eq_none s (Or.inr hall)] at hn
        cases hn
      · rw [denotedNumber_of_digits s hne hall] at hn
        have hv : digitsValue s = n := Option.some.inj hn
        have h5' : n ≤ 5 := h5
        rw [deviceMain_of_digits prog s hne hall, hv]
        have hb : ¬ (2 ^ 31 - 1 < (n : Int)) := by omega
        have hc : ¬ (n < 1 ∨ Default.MaxDeviceSupported < n) := by
          show ¬ (n < 1 ∨ 5 < n)
          omega
        simp only [hb, hc, if_false]
  have back : (deviceMain [prog, s]).proceeded = true → DenotesDeviceId s := by
    intro hp
    by_cases hne : s = []
    · subst hne
      have e : deviceMain [prog, []] = DeviceStart.terminated StoiError.invalid_argument := rfl
      rw [e] at hp
      cases hp
    · cases hall : s.all isdigit
      · have hn : IsNumber s = false := by rw [IsNumber_eq_all]; exact hall
        unfold deviceMain at hp
        simp [hn, DeviceStart.proceeded] at hp
      · rw [deviceMain_of_digits prog s hne hall] at hp
        refine ⟨digitsValue s, denotedNumber_of_digits s hne hall, ?_⟩
        by_cases hb : 2 ^ 31 - 1 < (digitsValue s : Int)
        · rw [if_pos hb] at hp
          cases hp
        · by_cases hc : digitsValue s < 1 ∨ Default.MaxDeviceSupported < digitsValue s
          · rw [if_neg hb, if_pos hc] at hp
            cases hp
          · omega
  refine ⟨⟨back, ?_⟩, ?_, key⟩
  · rintro ⟨n, hn, h1, h5⟩
    rw [key n hn h1 h5]
    rfl
  · intro hnot
    cases hres : deviceMain [prog, s] with
    | exitFailure => rfl
    | terminated e => rfl
    | constructed d =>
      exfalso
      apply hnot
      apply back
      rw [hres]
      rfl


/-- C8 at particular strings: `"0"`, `"6"`, the empty string, a string with a
non-digit and a digit string beyond 32 bits are rejected; `"1"` and `"5"` are accepted. -/
theorem device_id_validation_examples :
    deviceMain ["device".toList, "0".toList] = DeviceStart.exitFailure ∧
    deviceMain ["device".toList, "6".toList] = DeviceStart.exitFailure ∧
    deviceMain ["device".toList, "".toList] =
      DeviceStart.terminated StoiError.invalid_argument ∧
    deviceMain ["device".toList, "3a".toList] = DeviceStart.exitFailure ∧
    deviceMain ["device".toList, "-3".toList] = DeviceStart.exitFailure ∧
    deviceMain ["device".toList, "4294967297".toList] =
      DeviceStart.terminated StoiError.out_of_range ∧
    deviceMain ["device".toList, "1".toList] = DeviceStart.constructed 1 ∧
    deviceMain ["device".toList, "5".toList] = DeviceStart.constructed 5 := by
  decide

/-! ## The acknowledgement (C4) -/

theorem acksOnly_nil : acksOnly [] := by
  intro fd r n h
  cases h

theorem acksOnly_append (a b : List Action) (ha : acksOnly a) (hb : acksOnly b) :
    acksOnly (a ++ b) := by
  intro fd r n h
  rcases List.mem_append.mp h with h | h
  · exact ha fd r n h
  · exact hb fd r n h

theorem Accept_nil (s : ServerState) (wb : Bool) :
    Accept s [] wb = (if wb then some s else none, [Action.accept s._socketFd (-1)]) := rfl

theorem Accept_cons_neg (s : ServerState) (c : Int) (cs : List Int) (wb : Bool) (h : c < 0) :
    Accept s (c :: cs) wb = (if wb then some s else none, [Action.accept s._socketFd c]) := by
  rw [Accept, if_pos h]

theorem Accept_cons_nonneg (s : ServerState) (c : Int) (cs : List Int) (wb : Bool)
    (h : ¬ c < 0) :
    Accept s (c :: cs) wb =
      ((Accept (addPollFd s c) cs wb).1,
       Action.accept s._socketFd c :: (Accept (addPollFd s c) cs wb).2) := by
  have h2 : c ≠ -1 := by omega
  rw [Accept, if_neg h, if_pos h2]

theorem Accept_acksOnly (rets : List Int) (wb : Bool) (s : ServerState) :
    acksOnly (Accept s rets wb).2 := by
  induction rets generalizing s with
  | nil =>
    intro fd r n h
    simp [Accept_nil] at h
  | cons c cs ih =>
    intro fd r n h
    by_cases hc : c < 0
    · simp [Accept_cons_neg s c cs wb hc] at h
    · rw [Accept_cons_nonneg s c cs wb hc] at h
      simp only [List.mem_cons, reduceCtorEq, false_or] at h
      exact ih _ fd r n h

theorem ReadData_acksOnly (bo : ByteOrder) (s : ServerState) (fd : Int) (io : ReadDataIO) :
    acksOnly (ReadData bo s fd io).2 := by
  intro fd1 r n h
  simp only [ReadData, List.mem_cons, reduceCtorEq, Action.write.injEq, List.mem_nil_iff,
    or_false, false_or] at h
  obtain ⟨_, hr, hn⟩ := h
  subst hr
  exact ⟨rfl, hn⟩

theorem dispatchEntry_acksOnly (bo : ByteOrder) (io : HandlerIO) (s : ServerState) (i : Int) :
    acksOnly (dispatchEntry bo io s i).2 := by
  unfold dispatchEntry
  split_ifs with h1 h2 h3
  · exact acksOnly_nil
  · intro fd r n h
    simp [closeAndReorganize] at h
  · intro fd r n h
    simp only [List.mem_cons, reduceCtorEq, false_or] at h
    exact Accept_acksOnly _ _ _ fd r n h
  · intro fd r n h
    simp only [List.mem_cons, reduceCtorEq, false_or] at h
    exact ReadData_acksOnly _ _ _ _ fd r n h

theorem dispatchLoop_acksOnly (bo : ByteOrder) (io : Int → HandlerIO) (n : Nat) (i : Int)
    (s : ServerState) : acksOnly (dispatchLoop bo io n i s).2 := by
  induction n generalizing i s with
  | zero => exact acksOnly_nil
  | succ n ih =>
    unfold dispatchLoop
    have he := dispatchEntry_acksOnly bo (io i) s i
    rcases hres : dispatchEntry bo (io i) s i with ⟨_ | s1, tr⟩
    · rw [hres] at he
      exact he
    · rw [hres] at he
      exact acksOnly_append _ _ he (ih (i + 1) s1)

theorem pollMonitorIteration_acksOnly (bo : ByteOrder) (pr : PollResult)
    (io : Int → HandlerIO) (s : ServerState) :
    acksOnly (pollMonitorIteration bo pr io s).2 := by
  unfold pollMonitorIteration
  cases pr with
  | error => exact dispatchLoop_acksOnly _ _ _ _ _
  | ready revents =>
    simp only
    split_ifs
    · exact acksOnly_nil
    · exact dispatchLoop_acksOnly _ _ _ _ _

theorem pollMonitorRun_acksOnly (bo : ByteOrder) (steps : List (PollResult × (Int → HandlerIO)))
    (s : ServerState) : acksOnly (pollMonitorRun bo steps s).2 := by
  induction steps generalizing s with
  | nil => exact acksOnly_nil
  | cons step steps ih =>
    unfold pollMonitorRun
    have he := pollMonitorIteration_acksOnly bo step.1 step.2 s
    rcases hres : pollMonitorIteration bo step.1 step.2 s with ⟨_ | s1, tr⟩
    · rw [hres] at he
      exact he
    · rw [hres] at he
      exact acksOnly_append _ _ he (ih s1)

/-- C4. Every invocation of `ReadData` on a connection `fd` performs exactly one `read` of
`sizeof(MessageFrame)` bytes on `fd` followed by exactly one `write` on `fd` of a `Response`
whose `errorCode` is 200, with no `read` in between; and over any number of iterations of
the server loop, every `write` the server performs sends a `Response` with `errorCode`
200. -/
theorem acknowledgement_round_trip (bo : ByteOrder) (s : ServerState) (fd : Int)
    (io : ReadDataIO) (steps : List (PollResult × (Int → HandlerIO))) :
    (ReadData bo s fd io).2 =
      [Action.read fd sizeofMessageFrame io.readResult,
       Action.write fd { errorCode := 200 } sizeofResponse] ∧
    (∀ wfd r n, Action.write wfd r n ∈ (pollMonitorRun bo steps s).2 →
      r.errorCode = 200 ∧ n = sizeofResponse) :=
  ⟨rfl, pollMonitorRun_acksOnly bo steps s⟩

/-! ## The counter table (C2, C3) -/

theorem counterIncrement_same (m : CounterTable) (k : Int) :
    counterIncrement m k k = some (wrapInt32 ((m k).getD 0 + 1)) := by
  simp only [counterIncrement, if_true]

theorem counterIncrement_other (m : CounterTable) (k E : Int) (h : E ≠ k) :
    counterIncrement m k E = m E := by
  simp only [counterIncrement, h, if_false]

theorem counterIncrement_ne (m : CounterTable) (k : Int) : counterIncrement m k ≠ m := by
  intro h
  have h1 := congrFun h k
  rw [counterIncrement_same] at h1
  cases hm : m k with
  | none => rw [hm] at h1; cases h1
  | some v =>
    rw [hm] at h1
    simp only [Option.getD_some, Option.some.injEq] at h1
    unfold wrapInt32 at h1
    omega

theorem decodeFrame_deviceId_append (bo : ByteOrder) (bytes rest : List Byte)
    (h : 4 ≤ bytes.length) :
    (decodeFrame bo (bytes ++ rest)).deviceId = (decodeFrame bo bytes).deviceId := by
  have e1 : int32Field.size = 4 := rfl
  simp only [decodeFrame, messageFrameOffset_zero, slice, List.drop_zero, e1]
  rw [List.take_append_of_le_length h]

theorem messageBytes_full (stack bytes : List Byte) (h : bytes.length = sizeofMessageFrame) :
    messageBytes stack (.data bytes) = bytes ++ stack.drop sizeofMessageFrame := by
  simp only [messageBytes, h, min_self]
  rw [List.take_of_length_le (by omega)]

theorem ReadData_counter (bo : ByteOrder) (s : ServerState) (fd : Int) (io : ReadDataIO) :
    (ReadData bo s fd io).1._messageCounter =
      counterIncrement s._messageCounter
        (decodeFrame bo (messageBytes io.stack io.readResult)).deviceId := rfl

theorem ReadData_counter_full (bo : ByteOrder) (s : ServerState) (fd : Int) (io : ReadDataIO)
    (bytes : List Byte) (hr : io.readResult = .data bytes)
    (hlen : bytes.length = sizeofMessageFrame) :
    (ReadData bo s fd io).1._messageCounter =
      counterIncrement s._messageCounter (decodeFrame bo bytes).deviceId := by
  rw [ReadData_counter, hr, messageBytes_full _ _ hlen, decodeFrame_deviceId_append]
  rw [hlen, sizeofMessageFrame_eq]
  omega

theorem ReadData_registry (bo : ByteOrder) (s : ServerState) (fd : Int) (io : ReadDataIO) :
    (ReadData bo s fd io).1.pollFd = s.pollFd ∧
    (ReadData bo s fd io).1.pollIndex = s.pollIndex ∧
    (ReadData bo s fd io).1._socketFd = s._socketFd := ⟨rfl, rfl, rfl⟩

theorem Accept_counter (rets : List Int) (wb : Bool) (s s1 : ServerState)
    (h : (Accept s rets wb).1 = some s1) : s1._messageCounter = s._messageCounter := by
  induction rets generalizing s with
  | nil =>
    rw [Accept_nil] at h
    cases wb
    · cases h
    · simp only [if_true, Option.some.injEq] at h
      rw [← h]
  | cons c cs ih =>
    by_cases hc : c < 0
    · rw [Accept_cons_neg s c cs wb hc] at h
      cases wb
      · cases h
      · simp only [if_true, Option.some.injEq] at h
        rw [← h]
    · rw [Accept_cons_nonneg s c cs wb hc] at h
      exact ih (addPollFd s c) h

theorem framesRead_nil (bo : ByteOrder) (D : Int) : framesRead bo D [] = 0 := rfl

theorem framesRead_append (bo : ByteOrder) (D : Int) (a b : List Action) :
    framesRead bo D (a ++ b) = framesRead bo D a + framesRead bo D b := by
  simp only [framesRead, List.filter_append, List.length_append]

theorem framesRead_Accept (bo : ByteOrder) (D : Int) (rets : List Int) (wb : Bool)
    (s : ServerState) : framesRead bo D (Accept s rets wb).2 = 0 := by
  induction rets generalizing s with
  | nil => rfl
  | cons c cs ih =>
    by_cases hc : c < 0
    · rw [Accept_cons_neg s c cs wb hc]
      rfl
    · rw [Accept_cons_nonneg s c cs wb hc]
      have := ih (addPollFd s c)
      simp only [framesRead, List.filter_cons, Action.isFrameFor] at this ⊢
      simpa using this

theorem allReadsFull_append (a b : List Action) (h : allReadsFull (a ++ b)) :
    allReadsFull a ∧ allReadsFull b :=
  ⟨fun a hm => h a (List.mem_append.mpr (Or.inl hm)),
   fun a hm => h a (List.mem_append.mpr (Or.inr hm))⟩

theorem framesRead_ReadData (bo : ByteOrder) (D : Int) (s : ServerState) (fd : Int)
    (io : ReadDataIO) (bytes : List Byte) (hr : io.readResult = .data bytes)
    (hlen : bytes.length = sizeofMessageFrame) :
    framesRead bo D (Action.invokeReadData fd :: (ReadData bo s fd io).2) =
      if (decodeFrame bo bytes).deviceId = D then 1 else 0 := by
  simp only [framesRead, ReadData, hr, List.filter_cons, Action.isFrameFor, hlen, beq_self_eq_true,
    Bool.true_and, Bool.false_eq_true, if_false, List.filter_nil, beq_iff_eq]
  split_ifs <;> rfl

theorem isFullFrame_iff (r : ReadResult) :
    r.isFullFrame = true ↔ ∃ bytes, r = .data bytes ∧ bytes.length = sizeofMessageFrame := by
  cases r with
  | error => simp [ReadResult.isFullFrame]
  | data bytes => simp [ReadResult.isFullFrame]

theorem dispatchEntry_counter (bo : ByteOrder) (io : HandlerIO) (D : Int) (i : Int)
    (s s1 : ServerState) (hres : (dispatchEntry bo io s i).1 = some s1)
    (hfull : allReadsFull (dispatchEntry bo io s i).2)
    (hlo : -(2 ^ 31) ≤ counterOf s D)
    (hhi : counterOf s D + framesRead bo D (dispatchEntry bo io s i).2 < 2 ^ 31) :
    counterOf s1 D = counterOf s D + framesRead bo D (dispatchEntry bo io s i).2 := by
  unfold dispatchEntry at hres hfull hhi ⊢
  split_ifs at hres hfull hhi ⊢ with h1 h2 h3
  · simp only [Option.some.injEq] at hres
    rw [← hres, framesRead_nil]
    simp
  · simp only [Option.some.injEq] at hres
    rw [← hres]
    simp [closeAndReorganize, framesRead, Action.isFrameFor, counterOf]
  · simp only at hres ⊢
    have hc := Accept_counter _ _ _ _ hres
    have hf := framesRead_Accept bo D io.acceptRets io.acceptWouldBlock s
    have : framesRead bo D (Action.invokeAccept (s.pollFd i).fd ::
        (Accept s io.acceptRets io.acceptWouldBlock).2) = 0 := by
      simp only [framesRead, List.filter_cons, Action.isFrameFor] at hf ⊢
      simpa using hf
    rw [this]
    simp only [counterOf, hc]
    simp
  · simp only [Option.some.injEq] at hres hfull hhi ⊢
    have hr : (io.readData.readResult).isFullFrame = true := by
      have h := hfull (Action.read (s.pollFd i).fd sizeofMessageFrame io.readData.readResult)
        (by simp [ReadData])
      simpa [Action.isShortRead] using h
    obtain ⟨bytes, hb, hlen⟩ := (isFullFrame_iff _).mp hr
    rw [framesRead_ReadData bo D s _ _ bytes hb hlen] at hhi ⊢
    rw [← hres]
    simp only [counterOf, ReadData_counter_full bo s _ _ bytes hb hlen] at hlo hhi ⊢
    by_cases hd : (decodeFrame bo bytes).deviceId = D
    · rw [if_pos hd] at hhi ⊢
      rw [hd, counterIncrement_same]
      simp only [Option.getD_some]
      unfold wrapInt32
      push_cast at hhi ⊢
      omega
    · rw [if_neg hd]
      rw [counterIncrement_other _ _ _ (fun h => hd h.symm)]
      simp

theorem dispatchLoop_zero (bo : ByteOrder) (io : Int → HandlerIO) (i : Int) (s : ServerState) :
    dispatchLoop bo io 0 i s = (some s, []) := rfl

theorem dispatchLoop_succ_none (bo : ByteOrder) (io : Int → HandlerIO) (n : Nat) (i : Int)
    (s : ServerState) (tr : List Action) (h : dispatchEntry bo (io i) s i = (none, tr)) :
    dispatchLoop bo io (n + 1) i s = (none, tr) := by
  rw [dispatchLoop, h]

theorem dispatchLoop_succ_some (bo : ByteOrder) (io : Int → HandlerIO) (n : Nat) (i : Int)
    (s s2 : ServerState) (tr : List Action)
    (h : dispatchEntry bo (io i) s i = (some s2, tr)) :
    dispatchLoop bo io (n + 1) i s =
      ((dispatchLoop bo io n (i + 1) s2).1, tr ++ (dispatchLoop bo io n (i + 1) s2).2) := by
  rw [dispatchLoop, h]

theorem pollMonitorRun_nil (bo : ByteOrder) (s : ServerState) :
    pollMonitorRun bo [] s = (some s, []) := rfl

theorem pollMonitorRun_cons_none (bo : ByteOrder) (step : PollResult × (Int → HandlerIO))
    (steps : List (PollResult × (Int → HandlerIO))) (s : ServerState) (tr : List Action)
    (h : pollMonitorIteration bo step.1 step.2 s = (none, tr)) :
    pollMonitorRun bo (step :: steps) s = (none, tr) := by
  rw [pollMonitorRun, h]

theorem pollMonitorRun_cons_some (bo : ByteOrder) (step : PollResult × (Int → HandlerIO))
    (steps : List (PollResult × (Int → HandlerIO))) (s s2 : ServerState) (tr : List Action)
    (h : pollMonitorIteration bo step.1 step.2 s = (some s2, tr)) :
    pollMonitorRun bo (step :: steps) s =
      ((pollMonitorRun bo steps s2).1, tr ++ (pollMonitorRun bo steps s2).2) := by
  rw [pollMonitorRun, h]

theorem dispatchLoop_counter (bo : ByteOrder) (io : Int → HandlerIO) (D : Int) (n : Nat) :
    ∀ (i : Int) (s s1 : ServerState), (dispatchLoop bo io n i s).1 = some s1 →
      allReadsFull (dispatchLoop bo io n i s).2 →
      -(2 ^ 31) ≤ counterOf s D →
      counterOf s D + framesRead bo D (dispatchLoop bo io n i s).2 < 2 ^ 31 →
      counterOf s1 D = counterOf s D + framesRead bo D (dispatchLoop bo io n i s).2 := by
  induction n with
  | zero =>
    intro i s s1 hres _ _ _
    rw [dispatchLoop_zero] at hres ⊢
    simp only [Option.some.injEq] at hres
    rw [← hres]
    simp [framesRead_nil]
  | succ n ih =>
    intro i s s1 hres hfull hlo hhi
    have he := dispatchEntry_counter bo (io i) D i s
    rcases hent : dispatchEntry bo (io i) s i with ⟨_ | s2, tr⟩
    · rw [dispatchLoop_succ_none bo io n i s tr hent] at hres
      cases hres
    · rw [dispatchLoop_succ_some bo io n i s s2 tr hent] at hres hfull hhi ⊢
      rw [hent] at he
      simp only at hres hfull hhi he ⊢
      obtain ⟨hf1, hf2⟩ := allReadsFull_append _ _ hfull
      rw [framesRead_append] at hhi ⊢
      have h2 := he s2 rfl hf1 hlo (by push_cast at hhi ⊢; omega)
      have h3 := ih (i + 1) s2 s1 hres hf2 (by omega) (by push_cast at hhi ⊢; omega)
      push_cast
      omega

theorem pollMonitorIteration_error (bo : ByteOrder) (io : Int → HandlerIO) (s : ServerState) :
    pollMonitorIteration bo .error io s = dispatchLoop bo io s.pollIndex.toNat 0 s := rfl

theorem pollMonitorIteration_timeout (bo : ByteOrder) (revents : Int → Nat)
    (io : Int → HandlerIO) (s : ServerState) (h : nfdReady revents = 0) :
    pollMonitorIteration bo (.ready revents) io s = (none, []) := by
  simp only [pollMonitorIteration, h, if_true]

theorem pollMonitorIteration_ready (bo : ByteOrder) (revents : Int → Nat)
    (io : Int → HandlerIO) (s : ServerState) (h : nfdReady revents ≠ 0) :
    pollMonitorIteration bo (.ready revents) io s =
      dispatchLoop bo io s.pollIndex.toNat 0 (polled s revents) := by
  simp only [pollMonitorIteration, h, if_false, dispatch, polled]

theorem pollMonitorIteration_counter (bo : ByteOrder) (pr : PollResult)
    (io : Int → HandlerIO) (D : Int) (s s1 : ServerState)
    (hres : (pollMonitorIteration bo pr io s).1 = some s1)
    (hfull : allReadsFull (pollMonitorIteration bo pr io s).2)
    (hlo : -(2 ^ 31) ≤ counterOf s D)
    (hhi : counterOf s D + framesRead bo D (pollMonitorIteration bo pr io s).2 < 2 ^ 31) :
    counterOf s1 D = counterOf s D + framesRead bo D (pollMonitorIteration bo pr io s).2 := by
  cases pr with
  | error =>
    rw [pollMonitorIteration_error] at hres hfull hhi ⊢
    exact dispatchLoop_counter bo io D _ 0 s s1 hres hfull hlo hhi
  | ready revents =>
    by_cases h0 : nfdReady revents = 0
    · rw [pollMonitorIteration_timeout bo revents io s h0] at hres
      cases hres
    · rw [pollMonitorIteration_ready bo revents io s h0] at hres hfull hhi ⊢
      exact dispatchLoop_counter bo io D _ 0 _ s1 hres hfull hlo hhi

theorem pollMonitorRun_counter (bo : ByteOrder) (D : Int)
    (steps : List (PollResult × (Int → HandlerIO))) :
    ∀ (s s1 : ServerState), (pollMonitorRun bo steps s).1 = some s1 →
      allReadsFull (pollMonitorRun bo steps s).2 →
      -(2 ^ 31) ≤ counterOf s D →
      counterOf s D + framesRead bo D (pollMonitorRun bo steps s).2 < 2 ^ 31 →
      counterOf s1 D = counterOf s D + framesRead bo D (pollMonitorRun bo steps s).2 := by
  induction steps with
  | nil =>
    intro s s1 hres _ _ _
    rw [pollMonitorRun_nil] at hres ⊢
    simp only [Option.some.injEq] at hres
    rw [← hres]
    simp [framesRead_nil]
  | cons step steps ih =>
    intro s s1 hres hfull hlo hhi
    have he := pollMonitorIteration_counter bo step.1 step.2 D s
    rcases hent : pollMonitorIteration bo step.1 step.2 s with ⟨_ | s2, tr⟩
    · rw [pollMonitorRun_cons_none bo step steps s tr hent] at hres
      cases hres
    · rw [pollMonitorRun_cons_some bo step steps s s2 tr hent] at hres hfull hhi ⊢
      rw [hent] at he
      simp only at hres hfull hhi he ⊢
      obtain ⟨hf1, hf2⟩ := allReadsFull_append _ _ hfull
      rw [framesRead_append] at hhi ⊢
      have h2 := he s2 rfl hf1 hlo (by push_cast at hhi ⊢; omega)
      have h3 := ih s2 s1 hres hf2 (by omega) (by push_cast at hhi ⊢; omega)
      push_cast
      omega

/-- C2, evaluated on the code. A `read` that returns fewer bytes than
`sizeof(MessageFrame)` still changes the counter table: with zero bytes (peer close) or a
failed read the key is whatever device id the uninitialised `message` holds (here 7), and
with a partial record of 3 bytes the key is decoded from those bytes and the stale ones
(here 9); each time a key that was absent is inserted with count 1. -/
theorem short_read_is_counted :
    readRet (.data []) = 0 ∧ listening._messageCounter 7 = none ∧
    (ReadData .little listening 4 ⟨staleStack, .data [], 4⟩).1._messageCounter 7 = some 1 ∧
    readRet (.data [9, 0, 0]) = 3 ∧ listening._messageCounter 9 = none ∧
    (ReadData .little listening 4
      ⟨List.replicate 72 0, .data [9, 0, 0], 4⟩).1._messageCounter 9 = some 1 ∧
    readRet .error = -1 ∧
    (ReadData .little listening 4 ⟨staleStack, .error, 4⟩).1._messageCounter 7 = some 1 := by
  decide

/-- C3 as stated fails at the largest `int32_t`: a whole record for device 1 read when
`counter[1] = 2 ^ 31 - 1` leaves `counter[1] = -2 ^ 31`, which is neither the old value
plus one nor non-negative nor at least the old value. -/
theorem counter_wraps_at_int32_max :
    (frameFrom 1).readResult.isFullFrame = true ∧
    framesRead .little 1 (ReadData .little saturated 4 (frameFrom 1)).2 = 1 ∧
    saturated._messageCounter 1 = some 2147483647 ∧
    (ReadData .little saturated 4 (frameFrom 1)).1._messageCounter 1 = some (-2147483648) ∧
    (ReadData .little saturated 4 (frameFrom 1)).1._messageCounter 1 ≠
      some (2147483647 + 1) := by
  decide

/-- C3, amended. Let `counter[D]` be a 32-bit value. A `ReadData` call that reads a whole
record carrying `D` while `counter[D] < 2 ^ 31 - 1` yields `counter[D] = old + 1` (1 if `D`
was absent) and leaves `counter[E]` unchanged for every `E` other than `D`. Over any number
of iterations of the server loop in which every `read` brings a whole record and the count
stays below `2 ^ 31`, `counter[D]` grows by exactly the number of records for `D` read, so
it does not decrease and stays non-negative. -/
theorem counter_exact_increment (bo : ByteOrder) (s : ServerState) (D : Int)
    (hlo : -(2 ^ 31) ≤ counterOf s D) :
    (∀ (fd : Int) (io : ReadDataIO) (bytes : List Byte),
      io.readResult = .data bytes → bytes.length = sizeofMessageFrame →
      (decodeFrame bo bytes).deviceId = D → counterOf s D < 2 ^ 31 - 1 →
      (ReadData bo s fd io).1._messageCounter D = some (counterOf s D + 1) ∧
      ∀ E, E ≠ D → (ReadData bo s fd io).1._messageCounter E = s._messageCounter E) ∧
    (∀ (steps : List (PollResult × (Int → HandlerIO))) (s1 : ServerState),
      (pollMonitorRun bo steps s).1 = some s1 →
      allReadsFull (pollMonitorRun bo steps s).2 →
      counterOf s D + framesRead bo D (pollMonitorRun bo steps s).2 < 2 ^ 31 →
      counterOf s1 D = counterOf s D + framesRead bo D (pollMonitorRun bo steps s).2 ∧
      counterOf s D ≤ counterOf s1 D ∧ (0 ≤ counterOf s D → 0 ≤ counterOf s1 D)) := by
  constructor
  · intro fd io bytes hr hlen hid hhi
    rw [ReadData_counter_full bo s fd io bytes hr hlen, hid]
    refine ⟨?_, fun E hE => counterIncrement_other _ _ _ hE⟩
    rw [counterIncrement_same]
    simp only [counterOf] at hlo hhi ⊢
    unfold wrapInt32
    congr 1
    omega
  · intro steps s1 hres hfull hhi
    have h := pollMonitorRun_counter bo D steps s s1 hres hfull hlo hhi
    refine ⟨h, ?_, ?_⟩ <;> omega

/-- C3 amended, at the server holding one device: one record of device 1 makes
`counter[1] = 1`, and two loop iterations that each read one make it 2. -/
theorem counter_exact_increment_witness :
    -(2 ^ 31) ≤ counterOf (serving [4]) 1 ∧
    (ReadData .little (serving [4]) 4 (frameFrom 1)).1._messageCounter 1 = some 1 ∧
    counterOf (((pollMonitorRun .little [oneFrameStep, oneFrameStep]
      (serving [4])).1).getD listening) 1 = 2 :=
  ⟨by decide,
   ((counter_exact_increment .little (serving [4]) 1 (by decide)).1 4 (frameFrom 1) _ rfl
      (by decide) (by decide) (by decide)).1,
   ((counter_exact_increment .little (serving [4]) 1 (by decide)).2
      [oneFrameStep, oneFrameStep] _ rfl (by decide) (by decide)).1.trans (by decide)⟩

/-! ## Connections after an I/O failure (C6) -/

/-- C6, evaluated on the code. The registry holds the listener 3 and the device 4, and
the snapshot reports slot 1 readable. The `read` on socket 4 returns zero bytes (the peer
closed the stream) and the `write` of the acknowledgement returns. The dispatch pass
performs the `read` and the `write` and no `close`, and it leaves the registry as it
was: length 2, with socket 4 still in slot 1. -/
theorem peer_close_keeps_connection :
    (registry (polled (serving [4]) (onlyAt 1 POLLIN))) =
      [⟨3, POLLIN, 0⟩, ⟨4, POLLIN, POLLIN⟩] ∧
    readRet peerClosedIO.readData.readResult = 0 ∧
    peerClosedIO.readData.writeRet = 4 ∧
    (pollMonitorIteration .little (.ready (onlyAt 1 POLLIN)) (fun _ => peerClosedIO)
      (serving [4])).2 =
      [Action.invokeReadData 4, Action.read 4 72 (.data []), Action.write 4 ⟨200⟩ 4] ∧
    (pollMonitorIteration .little (.ready (onlyAt 1 POLLIN)) (fun _ => peerClosedIO)
      (serving [4])).1.map (fun s => (s.pollIndex, (registry s).map PollFd.fd)) =
      some (2, [3, 4]) := by
  decide

/-! ## The registry under compaction and `Accept` -/

theorem setFd_apply (pf : Int → PollFd) (i v k : Int) :
    setFd pf i v k = if k = i then { pf k with fd := v } else pf k := rfl

theorem setEvents_apply (pf : Int → PollFd) (i : Int) (v : Nat) (k : Int) :
    setEvents pf i v k = if k = i then { pf k with events := v } else pf k := rfl

theorem reorganize_apply (n : Nat) :
    ∀ (j : Int) (pf : Int → PollFd) (k : Int),
      reorganize n j pf k =
        if j ≤ k ∧ k < j + n then { pf k with fd := (pf (k + 1)).fd } else pf k := by
  induction n with
  | zero =>
    intro j pf k
    have h : ¬ (j ≤ k ∧ k < j + ((0 : Nat) : Int)) := by omega
    rw [if_neg h]
    rfl
  | succ n ih =>
    intro j pf k
    rw [reorganize, ih (j + 1) (setFd pf j (pf (j + 1)).fd) k]
    by_cases h1 : j + 1 ≤ k ∧ k < j + 1 + (n : Int)
    · have h2 : j ≤ k ∧ k < j + ((n + 1 : Nat) : Int) := by omega
      have h3 : k ≠ j := by omega
      have h4 : k + 1 ≠ j := by omega
      rw [if_pos h1, if_pos h2, setFd_apply, setFd_apply, if_neg h3, if_neg h4]
    · rw [if_neg h1]
      by_cases h5 : k = j
      · have h2 : j ≤ k ∧ k < j + ((n + 1 : Nat) : Int) := by omega
        rw [if_pos h2, setFd_apply, if_pos h5, h5]
      · have h2 : ¬ (j ≤ k ∧ k < j + ((n + 1 : Nat) : Int)) := by omega
        rw [if_neg h2, setFd_apply, if_neg h5]

theorem closeAndReorganize_pollFd (s : ServerState) (i k : Int) :
    (closeAndReorganize s i).1.pollFd k =
      if i ≤ k ∧ k < s.pollIndex - 1 then { s.pollFd k with fd := (s.pollFd (k + 1)).fd }
      else if k = i then { s.pollFd k with fd := -1 }
      else s.pollFd k := by
  simp only [closeAndReorganize, reorganize_apply]
  by_cases h1 : i ≤ k ∧ k < s.pollIndex - 1
  · have h2 : i ≤ k ∧ k < i + ((s.pollIndex - 1 - i).toNat : Int) := by omega
    have h3 : k + 1 ≠ i := by omega
    rw [if_pos h1, if_pos h2, setFd_apply, setFd_apply, if_neg h3]
    by_cases h4 : k = i
    · rw [if_pos h4]
    · rw [if_neg h4]
  · have h2 : ¬ (i ≤ k ∧ k < i + ((s.pollIndex - 1 - i).toNat : Int)) := by omega
    rw [if_neg h1, if_neg h2, setFd_apply]

theorem closeAndReorganize_fields (s : ServerState) (i : Int) :
    (closeAndReorganize s i).1.pollIndex = s.pollIndex - 1 ∧
    (closeAndReorganize s i).1._socketFd = s._socketFd ∧
    (closeAndReorganize s i).1._messageCounter = s._messageCounter ∧
    (closeAndReorganize s i).2 = [Action.close (s.pollFd i).fd] := ⟨rfl, rfl, rfl, rfl⟩

theorem addPollFd_pollFd (s : ServerState) (c k : Int) :
    (addPollFd s c).pollFd k =
      if k = s.pollIndex then { fd := c, events := POLLIN, revents := (s.pollFd k).revents }
      else s.pollFd k := by
  simp only [addPollFd, setEvents_apply, setFd_apply]
  by_cases h : k = s.pollIndex
  · simp only [if_pos h]
  · simp only [if_neg h]

theorem Accept_effect (rets : List Int) (wb : Bool) :
    ∀ (s s1 : ServerState), (Accept s rets wb).1 = some s1 →
      s1._socketFd = s._socketFd ∧ s.pollIndex ≤ s1.pollIndex ∧
      (∀ k, k < s.pollIndex → s1.pollFd k = s.pollFd k) ∧
      (∀ k, s.pollIndex ≤ k → k < s1.pollIndex → (s1.pollFd k).fd ∈ rets) := by
  induction rets with
  | nil =>
    intro s s1 h
    rw [Accept_nil] at h
    cases wb
    · cases h
    · simp only [if_true, Option.some.injEq] at h
      subst h
      exact ⟨rfl, le_refl _, fun _ _ => rfl, fun k h1 h2 => by omega⟩
  | cons c cs ih =>
    intro s s1 h
    by_cases hc : c < 0
    · rw [Accept_cons_neg s c cs wb hc] at h
      cases wb
      · cases h
      · simp only [if_true, Option.some.injEq] at h
        subst h
        exact ⟨rfl, le_refl _, fun _ _ => rfl, fun k h1 h2 => by omega⟩
    · rw [Accept_cons_nonneg s c cs wb hc] at h
      obtain ⟨h1, h2, h3, h4⟩ := ih (addPollFd s c) s1 h
      have hidx : (addPollFd s c).pollIndex = s.pollIndex + 1 := rfl
      rw [hidx] at h2 h3 h4
      refine ⟨h1, by omega, ?_, ?_⟩
      · intro k hk
        rw [h3 k (by omega), addPollFd_pollFd, if_neg (by omega)]
      · intro k hk1 hk2
        by_cases hk : k = s.pollIndex
        · rw [h3 k (by omega), addPollFd_pollFd, if_pos hk]
          exact List.mem_cons_self _ _
        · exact List.mem_cons_of_mem _ (h4 k (by omega) hk2)

theorem Accept_no_close (rets : List Int) (wb : Bool) :
    ∀ (s : ServerState) (fd : Int), Action.close fd ∉ (Accept s rets wb).2 := by
  induction rets with
  | nil =>
    intro s fd h
    simp [Accept_nil] at h
  | cons c cs ih =>
    intro s fd h
    by_cases hc : c < 0
    · simp [Accept_cons_neg s c cs wb hc] at h
    · rw [Accept_cons_nonneg s c cs wb hc] at h
      simp only [List.mem_cons, reduceCtorEq, false_or] at h
      exact ih _ fd h

/-! ## The listener (C5) -/

theorem isUnexpected_eq_false_iff (revents : Nat) :
    isUnexpected revents = false ↔ revents = POLLIN ∨ revents &&& POLLNVAL ≠ 0 := by
  simp only [isUnexpected, Bool.and_eq_false_iff, bne_eq_false_iff_eq, beq_eq_false_iff_ne]

theorem polled_fd (s : ServerState) (revents : Int → Nat) (k : Int) :
    ((polled s revents).pollFd k).fd = (s.pollFd k).fd := by
  simp only [polled, storeRevents]
  split_ifs <;> rfl

theorem polled_revents_zero (s : ServerState) (revents : Int → Nat) :
    ((polled s revents).pollFd 0).revents = revents 0 := by
  simp only [polled, storeRevents]
  rw [if_pos (by decide)]

theorem dispatchEntry_skip (bo : ByteOrder) (io : HandlerIO) (s : ServerState) (i : Int)
    (h : (s.pollFd i).revents = 0) : dispatchEntry bo io s i = (some s, []) := by
  rw [dispatchEntry, if_pos h]

theorem dispatchEntry_unexpected (bo : ByteOrder) (io : HandlerIO) (s : ServerState) (i : Int)
    (h0 : (s.pollFd i).revents ≠ 0) (h : isUnexpected (s.pollFd i).revents = true) :
    dispatchEntry bo io s i = (some (closeAndReorganize s i).1, (closeAndReorganize s i).2) := by
  rw [dispatchEntry, if_neg h0, if_pos h]

theorem dispatchEntry_accept (bo : ByteOrder) (io : HandlerIO) (s : ServerState) (i : Int)
    (h0 : (s.pollFd i).revents ≠ 0) (h : isUnexpected (s.pollFd i).revents = false)
    (hfd : (s.pollFd i).fd = s._socketFd) :
    dispatchEntry bo io s i =
      ((Accept s io.acceptRets io.acceptWouldBlock).1,
       Action.invokeAccept (s.pollFd i).fd :: (Accept s io.acceptRets io.acceptWouldBlock).2) := by
  rw [dispatchEntry, if_neg h0, h, if_pos hfd]
  simp

theorem dispatchEntry_readData (bo : ByteOrder) (io : HandlerIO) (s : ServerState) (i : Int)
    (h0 : (s.pollFd i).revents ≠ 0) (h : isUnexpected (s.pollFd i).revents = false)
    (hfd : (s.pollFd i).fd ≠ s._socketFd) :
    dispatchEntry bo io s i =
      (some (ReadData bo s (s.pollFd i).fd io.readData).1,
       Action.invokeReadData (s.pollFd i).fd ::
        (ReadData bo s (s.pollFd i).fd io.readData).2) := by
  rw [dispatchEntry, if_neg h0, h, if_neg hfd]
  simp

theorem dispatchEntry_cases (bo : ByteOrder) (io : HandlerIO) (s : ServerState) (i : Int) :
    dispatchEntry bo io s i = (some s, []) ∨
    ((s.pollFd i).revents ≠ 0 ∧ isUnexpected (s.pollFd i).revents = true ∧
      dispatchEntry bo io s i =
        (some (closeAndReorganize s i).1, (closeAndReorganize s i).2)) ∨
    ((s.pollFd i).revents ≠ 0 ∧ isUnexpected (s.pollFd i).revents = false ∧
      (s.pollFd i).fd = s._socketFd ∧
      dispatchEntry bo io s i =
        ((Accept s io.acceptRets io.acceptWouldBlock).1,
         Action.invokeAccept (s.pollFd i).fd ::
          (Accept s io.acceptRets io.acceptWouldBlock).2)) ∨
    ((s.pollFd i).fd ≠ s._socketFd ∧
      dispatchEntry bo io s i =
        (some (ReadData bo s (s.pollFd i).fd io.readData).1,
         Action.invokeReadData (s.pollFd i).fd ::
          (ReadData bo s (s.pollFd i).fd io.readData).2)) := by
  by_cases h0 : (s.pollFd i).revents = 0
  · exact Or.inl (dispatchEntry_skip bo io s i h0)
  · by_cases hu : isUnexpected (s.pollFd i).revents = true
    · exact Or.inr (Or.inl ⟨h0, hu, dispatchEntry_unexpected bo io s i h0 hu⟩)
    · have hu2 : isUnexpected (s.pollFd i).revents = false := by simpa using hu
      by_cases hfd : (s.pollFd i).fd = s._socketFd
      · exact Or.inr (Or.inr (Or.inl ⟨h0, hu2, hfd, dispatchEntry_accept bo io s i h0 hu2 hfd⟩))
      · exact Or.inr (Or.inr (Or.inr ⟨hfd, dispatchEntry_readData bo io s i h0 hu2 hfd⟩))

theorem dispatchEntry_listenerAtZero (bo : ByteOrder) (io : HandlerIO) (sock : Int)
    (s s1 : ServerState) (i : Int) (n : Nat) (hi : 1 ≤ i)
    (hinv : ListenerAtZero sock s (n + 1))
    (hres : (dispatchEntry bo io s i).1 = some s1) : ListenerAtZero sock s1 n := by
  obtain ⟨hs, hl, hn⟩ := hinv
  push_cast at hn
  rcases dispatchEntry_cases bo io s i with h | ⟨_, _, h⟩ | ⟨_, _, _, h⟩ | ⟨_, h⟩
  · rw [h] at hres
    simp only [Option.some.injEq] at hres
    subst hres
    exact ⟨hs, hl, by omega⟩
  · rw [h] at hres
    simp only [Option.some.injEq] at hres
    subst hres
    refine ⟨hs, ?_, ?_⟩
    · rw [closeAndReorganize_pollFd, if_neg (by omega), if_neg (by omega)]
      exact hl
    · rw [(closeAndReorganize_fields s i).1]
      omega
  · rw [h] at hres
    obtain ⟨h1, h2, h3, _⟩ := Accept_effect _ _ s s1 hres
    refine ⟨h1.trans hs, ?_, by omega⟩
    rw [h3 0 (by omega)]
    exact hl
  · rw [h] at hres
    simp only [Option.some.injEq] at hres
    subst hres
    exact ⟨hs, hl, by show (n : Int) + 1 ≤ s.pollIndex; omega⟩

theorem dispatchLoop_listenerAtZero (bo : ByteOrder) (io : Int → HandlerIO) (sock : Int)
    (n : Nat) :
    ∀ (i : Int) (s s1 : ServerState), 1 ≤ i → ListenerAtZero sock s n →
      (dispatchLoop bo io n i s).1 = some s1 → ListenerAtZero sock s1 0 := by
  induction n with
  | zero =>
    intro i s s1 _ hinv hres
    rw [dispatchLoop_zero] at hres
    simp only [Option.some.injEq] at hres
    subst hres
    exact hinv
  | succ n ih =>
    intro i s s1 hi hinv hres
    rcases hent : dispatchEntry bo (io i) s i with ⟨_ | s2, tr⟩
    · rw [dispatchLoop_succ_none bo io n i s tr hent] at hres
      cases hres
    · rw [dispatchLoop_succ_some bo io n i s s2 tr hent] at hres
      have h2 := dispatchEntry_listenerAtZero bo (io i) sock s s2 i n hi hinv (by rw [hent])
      exact ih (i + 1) s2 s1 (by omega) h2 hres

theorem dispatchEntry_zero_listener (bo : ByteOrder) (io : HandlerIO) (s s1 : ServerState)
    (hl : (s.pollFd 0).fd = s._socketFd)
    (hrev : (s.pollFd 0).revents = 0 ∨ isUnexpected (s.pollFd 0).revents = false)
    (hres : (dispatchEntry bo io s 0).1 = some s1) :
    s1._socketFd = s._socketFd ∧ s.pollIndex ≤ s1.pollIndex ∧
    (∀ k, k < s.pollIndex → s1.pollFd k = s.pollFd k) ∧
    (∀ k, s.pollIndex ≤ k → k < s1.pollIndex → (s1.pollFd k).fd ∈ io.acceptRets) := by
  rcases dispatchEntry_cases bo io s 0 with h | ⟨h0, hu, _⟩ | ⟨_, _, _, h⟩ | ⟨hfd, _⟩
  · rw [h] at hres
    simp only [Option.some.injEq] at hres
    subst hres
    exact ⟨rfl, le_refl _, fun _ _ => rfl, fun k h1 h2 => by omega⟩
  · rcases hrev with hrev | hrev
    · exact absurd hrev h0
    · rw [hu] at hrev
      cases hrev
  · rw [h] at hres
    exact Accept_effect _ _ s s1 hres
  · exact absurd hl hfd

theorem dispatch_listener_kept (bo : ByteOrder) (io : Int → HandlerIO) (s s1 : ServerState)
    (hl : (s.pollFd 0).fd = s._socketFd) (hidx : 1 ≤ s.pollIndex)
    (hrev : (s.pollFd 0).revents = 0 ∨ isUnexpected (s.pollFd 0).revents = false)
    (hres : (dispatchLoop bo io s.pollIndex.toNat 0 s).1 = some s1) :
    s1._socketFd = s._socketFd ∧ (s1.pollFd 0).fd = s1._socketFd ∧ 1 ≤ s1.pollIndex := by
  obtain ⟨m, hm⟩ : ∃ m : Nat, s.pollIndex.toNat = m + 1 := ⟨s.pollIndex.toNat - 1, by omega⟩
  rw [hm] at hres
  rcases hent : dispatchEntry bo (io 0) s 0 with ⟨_ | s2, tr⟩
  · rw [dispatchLoop_succ_none bo io m 0 s tr hent] at hres
    cases hres
  · rw [dispatchLoop_succ_some bo io m 0 s s2 tr hent] at hres
    obtain ⟨h1, h2, h3, _⟩ := dispatchEntry_zero_listener bo (io 0) s s2 hl hrev
      (by rw [hent])
    have hinv : ListenerAtZero s._socketFd s2 m :=
      ⟨h1, by rw [h3 0 (by omega)]; exact hl, by omega⟩
    obtain ⟨g1, g2, g3⟩ :=
      dispatchLoop_listenerAtZero bo io s._socketFd m (0 + 1) s2 s1 (by omega) hinv hres
    exact ⟨g1, by rw [g1]; exact g2, by omega⟩

theorem Accept_in_capacity (rets : List Int) (wb : Bool) :
    ∀ (s s1 : ServerState), 0 ≤ s.pollIndex →
      s.pollIndex + rets.length ≤ pollFdSlots → (Accept s rets wb).1 = some s1 →
      s1.outOfBounds = s.outOfBounds ∧ s1.pollIndex ≤ s.pollIndex + rets.length := by
  induction rets with
  | nil =>
    intro s s1 _ _ h
    rw [Accept_nil] at h
    cases wb
    · cases h
    · simp only [if_true, Option.some.injEq] at h
      subst h
      exact ⟨rfl, by simp⟩
  | cons c cs ih =>
    intro s s1 h0 hcap h
    simp only [List.length_cons] at hcap ⊢
    push_cast at hcap ⊢
    by_cases hc : c < 0
    · rw [Accept_cons_neg s c cs wb hc] at h
      cases wb
      · cases h
      · simp only [if_true, Option.some.injEq] at h
        subst h
        exact ⟨rfl, by omega⟩
    · rw [Accept_cons_nonneg s c cs wb hc] at h
      have hidx : (addPollFd s c).pollIndex = s.pollIndex + 1 := rfl
      have hin : 0 ≤ s.pollIndex ∧ s.pollIndex < (pollFdSlots : Int) := by omega
      have hob : (addPollFd s c).outOfBounds = s.outOfBounds := by
        simp only [addPollFd, hin, and_self, if_true]
      obtain ⟨h1, h2⟩ := ih (addPollFd s c) s1 (by rw [hidx]; omega) (by rw [hidx]; omega) h
      rw [hidx] at h2
      exact ⟨h1.trans hob, by omega⟩

theorem dispatchEntry_othersDiffer (bo : ByteOrder) (io : HandlerIO) (sock B : Int)
    (s : ServerState) (i : Int) (hi : 1 ≤ i) (hiB : i < B) (hsock : 0 ≤ sock)
    (hinv : OthersDiffer sock B s) :
    Action.close sock ∉ (dispatchEntry bo io s i).2 ∧
    ∃ s1, (dispatchEntry bo io s i).1 = some s1 ∧ OthersDiffer sock B s1 ∧
      s1.outOfBounds = s.outOfBounds := by
  obtain ⟨hs, ho, hB⟩ := hinv
  rcases dispatchEntry_cases bo io s i with h | ⟨_, _, h⟩ | ⟨_, _, hfd, _⟩ | ⟨_, h⟩
  · rw [h]
    exact ⟨by simp, s, rfl, ⟨hs, ho, hB⟩, rfl⟩
  · rw [h]
    refine ⟨?_, _, rfl, ⟨hs, ?_, ?_⟩, rfl⟩
    · rw [(closeAndReorganize_fields s i).2.2.2]
      simp only [List.mem_singleton, Action.close.injEq]
      exact fun e => ho i hi hiB e.symm
    · intro k hk1 hk2
      rw [closeAndReorganize_pollFd]
      split_ifs with c1 c2
      · exact ho (k + 1) (by omega) (by omega)
      · show (-1 : Int) ≠ sock
        omega
      · exact ho k hk1 hk2
    · rw [(closeAndReorganize_fields s i).1]
      omega
  · exact absurd (hfd.trans hs) (ho i hi hiB)
  · rw [h]
    refine ⟨?_, _, rfl, ⟨hs, ho, hB⟩, rfl⟩
    simp [ReadData]

theorem dispatchLoop_othersDiffer (bo : ByteOrder) (io : Int → HandlerIO) (sock B : Int)
    (hsock : 0 ≤ sock) (n : Nat) :
    ∀ (i : Int) (s : ServerState), 1 ≤ i → i + n ≤ B → OthersDiffer sock B s →
      Action.close sock ∉ (dispatchLoop bo io n i s).2 ∧
      ∃ s1, (dispatchLoop bo io n i s).1 = some s1 ∧ OthersDiffer sock B s1 ∧
        s1.outOfBounds = s.outOfBounds := by
  induction n with
  | zero =>
    intro i s _ _ hinv
    rw [dispatchLoop_zero]
    exact ⟨by simp, s, rfl, hinv, rfl⟩
  | succ n ih =>
    intro i s hi hiB hinv
    push_cast at hiB
    obtain ⟨hc, s2, h2, hinv2, hob2⟩ :=
      dispatchEntry_othersDiffer bo (io i) sock B s i hi (by omega) hsock hinv
    have hent : dispatchEntry bo (io i) s i = (some s2, (dispatchEntry bo (io i) s i).2) := by
      rw [← h2]
    rw [dispatchLoop_succ_some bo io n i s s2 _ hent]
    obtain ⟨hc3, s3, h3, hinv3, hob3⟩ := ih (i + 1) s2 (by omega) (by omega) hinv2
    refine ⟨?_, s3, h3, hinv3, hob3.trans hob2⟩
    intro hmem
    rcases List.mem_append.mp hmem with hm | hm
    · exact hc hm
    · exact hc3 hm

theorem dispatchEntry_zero_in_capacity (bo : ByteOrder) (io : HandlerIO) (s s1 : ServerState)
    (hl : (s.pollFd 0).fd = s._socketFd) (hidx : 1 ≤ s.pollIndex)
    (hcap : s.pollIndex + io.acceptRets.length ≤ pollFdSlots)
    (hrev : (s.pollFd 0).revents = 0 ∨ isUnexpected (s.pollFd 0).revents = false)
    (hres : (dispatchEntry bo io s 0).1 = some s1) :
    s1.outOfBounds = s.outOfBounds ∧ s1.pollIndex ≤ pollFdSlots := by
  rcases dispatchEntry_cases bo io s 0 with h | ⟨h0, hu, _⟩ | ⟨_, _, _, h⟩ | ⟨hfd, _⟩
  · rw [h] at hres
    simp only [Option.some.injEq] at hres
    subst hres
    exact ⟨rfl, by omega⟩
  · rcases hrev with hrev | hrev
    · exact absurd hrev h0
    · rw [hu] at hrev
      cases hrev
  · rw [h] at hres
    obtain ⟨h1, h2⟩ := Accept_in_capacity _ _ s s1 (by omega) hcap hres
    exact ⟨h1, by omega⟩
  · exact absurd hl hfd

theorem dispatch_listener_in_capacity (bo : ByteOrder) (io : Int → HandlerIO)
    (s : ServerState)
    (hl : (s.pollFd 0).fd = s._socketFd) (hidx : 1 ≤ s.pollIndex)
    (hrev : (s.pollFd 0).revents = 0 ∨ isUnexpected (s.pollFd 0).revents = false)
    (hsock : 0 ≤ s._socketFd)
    (hothers : ∀ k, 1 ≤ k → k < s.pollIndex → (s.pollFd k).fd ≠ s._socketFd)
    (hrets : ∀ c ∈ (io 0).acceptRets, c ≠ s._socketFd)
    (hcap : s.pollIndex + (io 0).acceptRets.length ≤ pollFdSlots) :
    Action.close s._socketFd ∉ (dispatchLoop bo io s.pollIndex.toNat 0 s).2 ∧
    ∀ s1, (dispatchLoop bo io s.pollIndex.toNat 0 s).1 = some s1 →
      s1.pollIndex ≤ pollFdSlots ∧ s1.outOfBounds = s.outOfBounds ∧
      ∀ k, 1 ≤ k → k < s1.pollIndex → (s1.pollFd k).fd ≠ s1._socketFd := by
  obtain ⟨m, hm⟩ : ∃ m : Nat, s.pollIndex.toNat = m + 1 := ⟨s.pollIndex.toNat - 1, by omega⟩
  rw [hm]
  have hstep0 : Action.close s._socketFd ∉ (dispatchEntry bo (io 0) s 0).2 := by
    rcases dispatchEntry_cases bo (io 0) s 0 with h | ⟨h0, hu, _⟩ | ⟨_, _, _, h⟩ | ⟨hfd, _⟩
    · rw [h]
      simp
    · rcases hrev with hrev | hrev
      · exact absurd hrev h0
      · rw [hu] at hrev
        cases hrev
    · rw [h]
      simp only [List.mem_cons, reduceCtorEq, false_or]
      exact Accept_no_close _ _ s _
    · exact absurd hl hfd
  rcases hent : dispatchEntry bo (io 0) s 0 with ⟨_ | s2, tr⟩
  · rw [dispatchLoop_succ_none bo io m 0 s tr hent]
    rw [hent] at hstep0
    exact ⟨hstep0, fun s1 h => by cases h⟩
  · rw [dispatchLoop_succ_some bo io m 0 s s2 tr hent]
    rw [hent] at hstep0
    obtain ⟨h1, h2, h3, h4⟩ := dispatchEntry_zero_listener bo (io 0) s s2 hl hrev
      (by rw [hent])
    obtain ⟨hob2, hcap2⟩ := dispatchEntry_zero_in_capacity bo (io 0) s s2 hl hidx hcap hrev
      (by rw [hent])
    have hinv : OthersDiffer s._socketFd s2.pollIndex s2 := by
      refine ⟨h1, ?_, le_refl _⟩
      intro k hk1 hk2
      by_cases hk : k < s.pollIndex
      · rw [h3 k hk]
        exact hothers k hk1 hk
      · exact hrets _ (h4 k (by omega) hk2)
    obtain ⟨hc, s3, h5, ⟨g1, g2, g3⟩, hob3⟩ :=
      dispatchLoop_othersDiffer bo io s._socketFd s2.pollIndex hsock m (0 + 1) s2 (by omega)
        (by omega) hinv
    refine ⟨?_, ?_⟩
    · intro hmem
      rcases List.mem_append.mp hmem with hm1 | hm1
      · exact hstep0 hm1
      · exact hc hm1
    · intro s1 hs1
      simp only at hs1
      rw [h5] at hs1
      simp only [Option.some.injEq] at hs1
      subst hs1
      refine ⟨by omega, hob3.trans hob2, ?_⟩
      intro k hk1 hk2
      rw [g1]
      exact g2 k hk1 (by omega)

/-- C5 as stated fails: with the listener 3 and device 4 in the registry, a snapshot that
reports `POLLERR` on the listening socket makes the dispatch pass close socket 3 and
leaves a registry of length 1 holding only socket 4. -/
theorem listener_removed_on_error :
    (serving [4])._socketFd = 3 ∧
    (registry (serving [4])).map PollFd.fd = [3, 4] ∧
    (pollMonitorIteration .little (.ready listenerError) (fun _ => quietIO)
      (serving [4])).2 = [Action.close 3] ∧
    (pollMonitorIteration .little (.ready listenerError) (fun _ => quietIO)
      (serving [4])).1.map (fun s => (registry s).map PollFd.fd) = some [4] := by
  decide

/-- C5, amended. Take any state in which the listening socket (a non-negative descriptor)
is entry 0 of a non-empty registry and no other entry holds its descriptor, and any
snapshot in which the listener's own `revents` is zero, readable-only, or has the invalid
bit set. Let the pass stay within capacity: the registry length plus the number of
connections `accept` returns is at most `pollFdSlots`, and `accept` does not return the
listener's descriptor. Then no dispatch step of the pass closes the listening socket, and
if the server is still running after the pass, the listening socket is still entry 0 of
a non-empty registry of at most `pollFdSlots` entries, no other entry holds its
descriptor, and no store was made outside the array. -/
theorem listener_kept_unless_unexpected (bo : ByteOrder) (io : Int → HandlerIO)
    (s : ServerState) (revents : Int → Nat)
    (hl : (s.pollFd 0).fd = s._socketFd) (hidx : 1 ≤ s.pollIndex)
    (hsock : 0 ≤ s._socketFd)
    (hothers : ∀ k, 1 ≤ k → k < s.pollIndex → (s.pollFd k).fd ≠ s._socketFd)
    (hrets : ∀ c ∈ (io 0).acceptRets, c ≠ s._socketFd)
    (hcap : s.pollIndex + (io 0).acceptRets.length ≤ pollFdSlots)
    (hrev : revents 0 = 0 ∨ isUnexpected (revents 0) = false) :
    Action.close s._socketFd ∉ (pollMonitorIteration bo (.ready revents) io s).2 ∧
    ∀ s1, (pollMonitorIteration bo (.ready revents) io s).1 = some s1 →
      s1._socketFd = s._socketFd ∧ (s1.pollFd 0).fd = s1._socketFd ∧
      1 ≤ s1.pollIndex ∧ s1.pollIndex ≤ pollFdSlots ∧
      s1.outOfBounds = s.outOfBounds ∧
      ∀ k, 1 ≤ k → k < s1.pollIndex → (s1.pollFd k).fd ≠ s1._socketFd := by
  by_cases h0 : nfdReady revents = 0
  · rw [pollMonitorIteration_timeout bo revents io s h0]
    refine ⟨by simp, ?_⟩
    intro s1 h
    cases h
  · rw [pollMonitorIteration_ready bo revents io s h0]
    have hl2 : ((polled s revents).pollFd 0).fd = (polled s revents)._socketFd := by
      rw [polled_fd]
      exact hl
    have hrev2 : ((polled s revents).pollFd 0).revents = 0 ∨
        isUnexpected ((polled s revents).pollFd 0).revents = false := by
      rw [polled_revents_zero]
      exact hrev
    obtain ⟨hc, hall⟩ := dispatch_listener_in_capacity bo io (polled s revents) hl2 hidx
      hrev2 hsock (fun k hk1 hk2 => by rw [polled_fd]; exact hothers k hk1 hk2) hrets hcap
    refine ⟨hc, ?_⟩
    intro s1 hs1
    obtain ⟨k1, k2, k3⟩ := dispatch_listener_kept bo io (polled s revents) s1 hl2 hidx hrev2 hs1
    obtain ⟨c1, c2, c3⟩ := hall s1 hs1
    exact ⟨k1, k2, k3, c1, c2, c3⟩

/-- C5 amended, at the server holding the listener 3 and device 4 when the listener is
readable and one connection (socket 5) is pending: the listener is not closed and stays
in slot 0. -/
theorem listener_kept_unless_unexpected_witness :
    ((serving [4]).pollFd 0).fd = (serving [4])._socketFd ∧ 1 ≤ (serving [4]).pollIndex ∧
    (serving [4]).pollIndex + (1 : Nat) ≤ pollFdSlots ∧
    Action.close 3 ∉ (pollMonitorIteration .little (.ready (onlyAt 0 POLLIN))
      (fun _ => ⟨[5], true, quietIO.readData⟩) (serving [4])).2 ∧
    (((pollMonitorIteration .little (.ready (onlyAt 0 POLLIN))
      (fun _ => ⟨[5], true, quietIO.readData⟩) (serving [4])).1.getD listening).pollFd 0).fd
      = 3 :=
  ⟨by decide, by decide, by decide,
   (listener_kept_unless_unexpected .little (fun _ => ⟨[5], true, quietIO.readData⟩)
      (serving [4]) (onlyAt 0 POLLIN) (by decide) (by decide) (by decide)
      (by intro k h1 h2
          have hk : k = 1 := by
            have : (serving [4]).pollIndex = 2 := by decide
            omega
          subst hk
          decide)
      (by decide) (by decide) (by decide)).1,
   ((listener_kept_unless_unexpected .little (fun _ => ⟨[5], true, quietIO.readData⟩)
      (serving [4]) (onlyAt 0 POLLIN) (by decide) (by decide) (by decide)
      (by intro k h1 h2
          have hk : k = 1 := by
            have : (serving [4]).pollIndex = 2 := by decide
            omega
          subst hk
          decide)
      (by decide) (by decide) (by decide)).2 _ rfl).2.1⟩

/-! ## Capacity (C1) -/

/-- C1, evaluated on the code. From the state after `Listen`, one pass in which the
listener is readable and six connections are pending stores the sixth at `pollFd[6]`,
outside the array of `pollFdSlots = 6` slots, and leaves `pollIndex = 7`; no `close` is
performed. Likewise `Accept` run with five device entries already held (`pollIndex = 6`)
stores the new connection at index 6 and performs no `close`. Both stores are logged as
made outside the array. -/
theorem capacity_is_not_enforced :
    pollFdSlots = 6 ∧
    Listen (initialState 3) 0 = some listening ∧
    (pollMonitorIteration .little (.ready (onlyAt 0 POLLIN)) sixPending listening).1.map
      (fun s => s.pollIndex) = some 7 ∧
    (pollMonitorIteration .little (.ready (onlyAt 0 POLLIN)) sixPending listening).1.map
      (fun s => s.pollFd 6) = some ⟨9, POLLIN, 0⟩ ∧
    (pollMonitorIteration .little (.ready (onlyAt 0 POLLIN)) sixPending listening).2 =
      [Action.invokeAccept 3, Action.accept 3 4, Action.accept 3 5, Action.accept 3 6,
       Action.accept 3 7, Action.accept 3 8, Action.accept 3 9, Action.accept 3 (-1)] ∧
    (serving [4, 5, 6, 7, 8]).pollIndex = 6 ∧
    (Accept (serving [4, 5, 6, 7, 8]) [9] true).1.map
      (fun s => (s.pollIndex, s.pollFd 6)) = some (7, ⟨9, POLLIN, 0⟩) ∧
    (Accept (serving [4, 5, 6, 7, 8]) [9] true).2 =
      [Action.accept 3 9, Action.accept 3 (-1)] ∧
    (pollMonitorIteration .little (.ready (onlyAt 0 POLLIN)) sixPending listening).1.map
      (fun s => s.outOfBounds) = some [6] ∧
    (serving [4, 5, 6, 7, 8]).outOfBounds = [] ∧
    (Accept (serving [4, 5, 6, 7, 8]) [9] true).1.map (fun s => s.outOfBounds) = some [6] :=
  ⟨by decide, rfl, by decide, by decide, by decide, by decide, by decide, by decide,
   by decide, by decide, by decide⟩

/-! ## Dispatch order (C7) and compaction (C10) -/

/-- C7, evaluated on the code. The registry holds the listener 3 and the devices 4, 5, 6;
the snapshot reports a hang-up on 4 and readable data on 5, nothing on 6. The sockets to
service are `[5]`, but the pass closes 4 and then invokes `ReadData` on 6, whose own
`revents` was zero, and never on 5. -/
theorem ready_socket_skipped_after_compaction :
    (registry (polled (serving [4, 5, 6]) hangupThenReadable)) =
      [⟨3, POLLIN, 0⟩, ⟨4, POLLIN, POLLHUP⟩, ⟨5, POLLIN, POLLIN⟩, ⟨6, POLLIN, 0⟩] ∧
    readySockets (polled (serving [4, 5, 6]) hangupThenReadable) = [5] ∧
    (pollMonitorIteration .little (.ready hangupThenReadable) (fun _ => quietIO)
      (serving [4, 5, 6])).2 =
      [Action.close 4, Action.invokeReadData 6, Action.read 6 72 .error,
       Action.write 6 ⟨200⟩ 4] ∧
    handlerSockets (pollMonitorIteration .little (.ready hangupThenReadable)
      (fun _ => quietIO) (serving [4, 5, 6])).2 = [6] := by
  decide

/-- C10, evaluated on the code. In the registry `[3, 4, 5, 6]` with a hang-up reported at
slot 1, the dispatch step for slot 1 closes socket 4, calls no handler and leaves a
registry of length 3 whose slot 0 is unchanged and whose slots 1 and 2 hold the sockets 5
and 6; but slot 1 is not the complete former slot 2: it keeps its own `revents`
(`POLLHUP`) while the readiness of socket 5 (`POLLIN`) stays behind in slot 2, now paired
with socket 6. -/
theorem compaction_moves_only_the_descriptor :
    (registry (polled (serving [4, 5, 6]) hangupThenReadable)) =
      [⟨3, POLLIN, 0⟩, ⟨4, POLLIN, POLLHUP⟩, ⟨5, POLLIN, POLLIN⟩, ⟨6, POLLIN, 0⟩] ∧
    (dispatchEntry .little quietIO (polled (serving [4, 5, 6]) hangupThenReadable) 1).2 =
      [Action.close 4] ∧
    (dispatchEntry .little quietIO (polled (serving [4, 5, 6]) hangupThenReadable) 1).1.map
      registry = some [⟨3, POLLIN, 0⟩, ⟨5, POLLIN, POLLHUP⟩, ⟨6, POLLIN, POLLIN⟩] := by
  decide

end RemoteDeviceMonitoring
